import Mathlib

/-!
Verification development for the IFC-to-graph importer of this repository.

The importer (ifc_to_neo4j_parser and the FalkorDB variant) streams file,
element and relationship records into a property graph store through
parameterized MERGE statements.  We embed the write layer shallowly: the
graph store is a pure value, each Cypher write issued by the code becomes a
Lean function on that value, and the Python control flow (guards, loops,
exception wrappers) is translated directly.  External black boxes (the IFC
parsing library, the database drivers) appear as parameters.
-/

namespace IfcGraph

/-- Property values stored on nodes and edges: strings and integers cover
every value the importer writes (all fields are strings except fileSize). -/
inductive Value where
  | str (s : String)
  | int (n : Int)
deriving DecidableEq, Repr

/-- A property map of a node or edge, as a partial function from keys. -/
def Props := String → Option Value

/-- Semantics of a Cypher SET of a single property. -/
def setProp (p : Props) (k : String) (v : Value) : Props :=
  fun k' => if k' = k then some v else p k'

/-- Semantics of a sequence of property assignments (SET n += map, or a
SET list); later assignments win. -/
def setProps (p : Props) (kvs : List (String × Value)) : Props :=
  kvs.foldl (fun acc kv => setProp acc kv.1 kv.2) p

/-- The empty property map. -/
def emptyProps : Props := fun _ => none

/-- The last value bound to key k by an assignment list, if any. -/
def lastVal (kvs : List (String × Value)) (k : String) : Option Value :=
  (kvs.reverse.find? (fun kv => kv.1 == k)).map (·.2)

/-- A graph node: internal id, labels, properties. -/
structure GNode where
  nid : Nat
  labels : List String
  props : Props

/-- A directed typed edge between internal node ids. -/
structure GEdge where
  src : Nat
  dst : Nat
  typ : String
  props : Props

/-- The property graph owned by the database backend. -/
structure Graph where
  nodes : List GNode
  edges : List GEdge
  nextId : Nat

def emptyGraph : Graph := { nodes := [], edges := [], nextId := 0 }

/-- Does node n match the pattern (labels L, property k = v)?  This is the
match condition of every MERGE and MATCH the importer issues. -/
def nodeMatch (n : GNode) (L : List String) (k : String) (v : Value) : Bool :=
  L.all (fun l => n.labels.contains l) && (n.props k == some v)

/-- Internal ids of the nodes matching a pattern. -/
def matchNids (g : Graph) (L : List String) (k : String) (v : Value) : List Nat :=
  (g.nodes.filter (fun n => nodeMatch n L k v)).map (·.nid)

/-- Semantics of MERGE (n:L {k: v}) SET n += P, RETURN n: if matching nodes
exist they are all updated and their ids returned (one result row per
match); otherwise a fresh node is created from the pattern and P. -/
def mergeNodeSet (g : Graph) (L : List String) (k : String) (v : Value)
    (P : List (String × Value)) : Graph × List Nat :=
  let m := g.nodes.filter (fun n => nodeMatch n L k v)
  if m.isEmpty then
    let n : GNode := { nid := g.nextId, labels := L,
                       props := setProps (setProp emptyProps k v) P }
    ({ g with nodes := g.nodes ++ [n], nextId := g.nextId + 1 }, [g.nextId])
  else
    ({ g with nodes := g.nodes.map (fun n =>
        if nodeMatch n L k v then { n with props := setProps n.props P } else n) },
     m.map (·.nid))

def edgeMatch (e : GEdge) (s t : Nat) (ty : String) : Bool :=
  e.src == s && e.dst == t && e.typ == ty

def edgePresent (g : Graph) (s t : Nat) (ty : String) : Bool :=
  g.edges.any (fun e => edgeMatch e s t ty)

/-- Semantics of MERGE (a)-[r:ty]->(b) SET r.props for one bound node
pair: update the edge if present, create it otherwise. -/
def mergeEdge (g : Graph) (s t : Nat) (ty : String) (P : List (String × Value)) : Graph :=
  if edgePresent g s t ty then
    { g with edges := g.edges.map (fun e =>
        if edgeMatch e s t ty then { e with props := setProps e.props P } else e) }
  else
    { g with edges := g.edges ++ [{ src := s, dst := t, typ := ty,
                                    props := setProps emptyProps P }] }

/-- Edge merge over the cartesian product of two bound node sets, as a
MATCH a, MATCH b, MERGE (a)-[r]->(b) query produces one row per pair. -/
def mergeEdgesAll (g : Graph) (ss ts : List Nat) (ty : String)
    (P : List (String × Value)) : Graph :=
  ss.foldl (fun acc s => ts.foldl (fun acc2 t => mergeEdge acc2 s t ty P) acc) g

/-- Node skeleton: the data of a node that MERGE/MATCH patterns and the
statistics queries can observe (id, labels, and the two key properties). -/
structure NSkel where
  nid : Nat
  labels : List String
  gid : Option Value
  fid : Option Value
deriving DecidableEq, Repr

def nodeSkel (n : GNode) : NSkel :=
  { nid := n.nid, labels := n.labels, gid := n.props "globalId", fid := n.props "fileId" }

/-- Edge skeleton: endpoints and type. -/
structure ESkel where
  src : Nat
  dst : Nat
  typ : String
deriving DecidableEq, Repr

def edgeSkel (e : GEdge) : ESkel := { src := e.src, dst := e.dst, typ := e.typ }

def Graph.nodeSkels (g : Graph) : List NSkel := g.nodes.map nodeSkel

def Graph.edgeSkels (g : Graph) : List ESkel := g.edges.map edgeSkel

/-- Full observable skeleton of a graph. -/
def Graph.skel (g : Graph) : List NSkel × List ESkel × Nat :=
  (g.nodeSkels, g.edgeSkels, g.nextId)

/-- Record describing one source IFC file, as read from the filesystem by
create_file_node (spec section 3, file node). -/
structure FileRec where
  stem : String
  mtime : Int
  fileName : String
  filePath : String
  fileSize : Int
  createdDate : String
  modifiedDate : String

/-- Derived file identifier FILE_stem_mtime computed by both backends. -/
def FileRec.fileId (f : FileRec) : String :=
  "FILE_" ++ f.stem ++ "_" ++ toString f.mtime

/-- Entity record produced by the extractor for one IFC product. -/
structure ElementRec where
  globalId : String
  ifcClass : String
  name : String
  description : String
  objectType : String
  tag : String
  /-- json.dumps of the property sets when extraction found any. -/
  propsJson : Option String

/-- Relationship record: the five kinds the extractor emits.  Endpoint
identifiers are strings; the empty string models a Python falsy id. -/
inductive RelRec where
  | aggregates (globalId : String) (fromElement : String) (toElements : List String)
  | connects (globalId : String) (fromElement : String) (toElement : String)
  | hasProperty (globalId : String) (fromElements : List String) (toProperty : String)
  | containedIn (globalId : String) (fromElements : List String) (toStructure : String)
  | assignedTo (globalId : String) (fromElements : List String) (toGroup : String)

namespace Neo4j

/-- Property assignments written for a file node by
Neo4jDatabase._create_file_tx (SET f += fileData, in dict order). -/
def fileProps (f : FileRec) (importDate : String) : List (String × Value) :=
  [("fileId", .str f.fileId), ("fileName", .str f.fileName),
   ("filePath", .str f.filePath), ("fileSize", .int f.fileSize),
   ("createdDate", .str f.createdDate), ("modifiedDate", .str f.modifiedDate),
   ("importDate", .str importDate)]

/-- Neo4jDatabase.create_file_node and its transaction _create_file_tx:
MERGE (f:IFCFile {fileId: id}) SET f += fileData RETURN f.fileId.
The date of the run is datetime.now() at call time, a parameter here. -/
def create_file_node (g : Graph) (f : FileRec) (importDate : String) :
    Graph × Option String :=
  let r := mergeNodeSet g ["IFCFile"] "fileId" (.str f.fileId) (fileProps f importDate)
  if r.2.isEmpty then (r.1, none) else (r.1, some f.fileId)

/-- Property dictionary built by Neo4jDatabase._create_element_tx (base
fields, then sourceFileId when a file id is supplied, then the JSON blob
of the property sets when present). -/
def elemProps (e : ElementRec) (fid : Option String) : List (String × Value) :=
  [("globalId", .str e.globalId), ("name", .str e.name),
   ("ifcClass", .str e.ifcClass), ("description", .str e.description),
   ("objectType", .str e.objectType), ("tag", .str e.tag)]
  ++ (match fid with | some f => [("sourceFileId", .str f)] | none => [])
  ++ (match e.propsJson with | some j => [("properties", .str j)] | none => [])

/-- Neo4jDatabase._create_element_tx: MERGE the element node under labels
Element and its IFC class keyed by globalId, SET its properties; when a
file id is given, MATCH the file node and MERGE a BELONGS_TO_FILE edge.
The final RETURN yields a row only if every MATCH bound a node, which is
what result.single() checks. -/
def create_element_node (g : Graph) (e : ElementRec) (fid : Option String) :
    Graph × Bool :=
  let r := mergeNodeSet g ["Element", e.ifcClass] "globalId" (.str e.globalId)
            (elemProps e fid)
  match fid with
  | none => (r.1, !r.2.isEmpty)
  | some f =>
    let fnids := matchNids r.1 ["IFCFile"] "fileId" (.str f)
    (mergeEdgesAll r.1 r.2 fnids "BELONGS_TO_FILE" [], !r.2.isEmpty && !fnids.isEmpty)

/-- One endpoint pair of a relationship query: MATCH both Element nodes by
globalId, MERGE the typed edge, SET r.globalId, RETURN r.  Success is one
result row existing, i.e. both endpoints bound. -/
def createEdgePair (g : Graph) (fromGid toGid : String) (ty relId : String) :
    Graph × Bool :=
  let ss := matchNids g ["Element"] "globalId" (.str fromGid)
  let ts := matchNids g ["Element"] "globalId" (.str toGid)
  (mergeEdgesAll g ss ts ty [("globalId", .str relId)], !ss.isEmpty && !ts.isEmpty)

/-- Neo4jDatabase._create_aggregates_relationship: guard on falsy
endpoints, then one independent write per child, success when at least
one pair succeeded. -/
def createAggregatesRelationship (g : Graph) (relId fromId : String)
    (toIds : List String) : Graph × Bool :=
  if fromId = "" || toIds.isEmpty then (g, false)
  else
    let r := toIds.foldl (fun acc toId =>
      let p := createEdgePair acc.1 fromId toId "AGGREGATES" relId
      (p.1, acc.2 + (if p.2 then 1 else 0))) (g, 0)
    (r.1, decide (0 < r.2))

/-- Neo4jDatabase._create_connects_relationship: a single endpoint pair;
success is result.single() being a row. -/
def createConnectsRelationship (g : Graph) (relId fromId toId : String) :
    Graph × Bool :=
  if fromId = "" || toId = "" then (g, false)
  else createEdgePair g fromId toId "CONNECTS_TO" relId

/-- Neo4jDatabase._create_property_relationship: property sets are stored
as node attributes, so the write layer does nothing and reports success. -/
def createPropertyRelationship (g : Graph) : Graph × Bool := (g, true)

/-- Neo4jDatabase._create_spatial_relationship: one write per contained
element, success when at least one pair succeeded. -/
def createSpatialRelationship (g : Graph) (relId : String)
    (fromIds : List String) (toId : String) : Graph × Bool :=
  if fromIds.isEmpty || toId = "" then (g, false)
  else
    let r := fromIds.foldl (fun acc fromId =>
      let p := createEdgePair acc.1 fromId toId "CONTAINED_IN" relId
      (p.1, acc.2 + (if p.2 then 1 else 0))) (g, 0)
    (r.1, decide (0 < r.2))

/-- Neo4jDatabase._create_group_relationship: one write per assigned
element, success when at least one pair succeeded. -/
def createGroupRelationship (g : Graph) (relId : String)
    (fromIds : List String) (toId : String) : Graph × Bool :=
  if fromIds.isEmpty || toId = "" then (g, false)
  else
    let r := fromIds.foldl (fun acc fromId =>
      let p := createEdgePair acc.1 fromId toId "ASSIGNED_TO" relId
      (p.1, acc.2 + (if p.2 then 1 else 0))) (g, 0)
    (r.1, decide (0 < r.2))

/-- Neo4jDatabase._create_relationship_tx: dispatch on the record type. -/
def create_relationship (g : Graph) : RelRec → Graph × Bool
  | .aggregates rid a bs => createAggregatesRelationship g rid a bs
  | .connects rid a b => createConnectsRelationship g rid a b
  | .hasProperty _ _ _ => createPropertyRelationship g
  | .containedIn rid as b => createSpatialRelationship g rid as b
  | .assignedTo rid as b => createGroupRelationship g rid as b

end Neo4j

namespace FalkorDB

/-- Property assignments of FalkorDBDatabase.create_file_node: the SET
clause lists every field except fileId, which only appears in the MERGE
pattern. -/
def fileProps (f : FileRec) (importDate : String) : List (String × Value) :=
  [("fileName", .str f.fileName), ("filePath", .str f.filePath),
   ("fileSize", .int f.fileSize), ("createdDate", .str f.createdDate),
   ("modifiedDate", .str f.modifiedDate), ("importDate", .str importDate)]

/-- FalkorDBDatabase.create_file_node: MERGE on (:IFCFile {fileId}) with
explicit SET of each metadata field; success is a non-empty result_set. -/
def create_file_node (g : Graph) (f : FileRec) (importDate : String) :
    Graph × Option String :=
  let r := mergeNodeSet g ["IFCFile"] "fileId" (.str f.fileId) (fileProps f importDate)
  if r.2.isEmpty then (r.1, none) else (r.1, some f.fileId)

/-- SET clause of FalkorDBDatabase.create_element_node: every base field
except globalId (which is only in the MERGE pattern), then sourceFileId
and the JSON property blob when present. -/
def elemProps (e : ElementRec) (fid : Option String) : List (String × Value) :=
  [("name", .str e.name), ("ifcClass", .str e.ifcClass),
   ("description", .str e.description), ("objectType", .str e.objectType),
   ("tag", .str e.tag)]
  ++ (match fid with | some f => [("sourceFileId", .str f)] | none => [])
  ++ (match e.propsJson with | some j => [("properties", .str j)] | none => [])

/-- FalkorDBDatabase.create_element_node: same query shape as the Neo4j
transaction (multi-label MERGE, SET, optional BELONGS_TO_FILE merge). -/
def create_element_node (g : Graph) (e : ElementRec) (fid : Option String) :
    Graph × Bool :=
  let r := mergeNodeSet g ["Element", e.ifcClass] "globalId" (.str e.globalId)
            (elemProps e fid)
  match fid with
  | none => (r.1, !r.2.isEmpty)
  | some f =>
    let fnids := matchNids r.1 ["IFCFile"] "fileId" (.str f)
    (mergeEdgesAll r.1 r.2 fnids "BELONGS_TO_FILE" [], !r.2.isEmpty && !fnids.isEmpty)

/-- FalkorDBDatabase._create_aggregates_relationship: identical loop to
the Neo4j backend (the per-pair try/except only guards driver errors). -/
def createAggregatesRelationship (g : Graph) (relId fromId : String)
    (toIds : List String) : Graph × Bool :=
  if fromId = "" || toIds.isEmpty then (g, false)
  else
    let r := toIds.foldl (fun acc toId =>
      let p := Neo4j.createEdgePair acc.1 fromId toId "AGGREGATES" relId
      (p.1, acc.2 + (if p.2 then 1 else 0))) (g, 0)
    (r.1, decide (0 < r.2))

/-- FalkorDBDatabase._create_connects_relationship: one pair, but the
success check is result.result_set is not None, and the client result_set
is always a list (possibly empty), so after the falsy-id guard the method
reports success whether or not the MATCH bound any node. -/
def createConnectsRelationship (g : Graph) (relId fromId toId : String) :
    Graph × Bool :=
  if fromId = "" || toId = "" then (g, false)
  else ((Neo4j.createEdgePair g fromId toId "CONNECTS_TO" relId).1, true)

/-- FalkorDBDatabase._create_property_relationship: unlike the Neo4j
backend this materializes one HAS_PROPERTY edge per referencing element,
with the same per-pair loop as the other multi-endpoint kinds. -/
def createPropertyRelationship (g : Graph) (relId : String)
    (fromIds : List String) (toId : String) : Graph × Bool :=
  if fromIds.isEmpty || toId = "" then (g, false)
  else
    let r := fromIds.foldl (fun acc fromId =>
      let p := Neo4j.createEdgePair acc.1 fromId toId "HAS_PROPERTY" relId
      (p.1, acc.2 + (if p.2 then 1 else 0))) (g, 0)
    (r.1, decide (0 < r.2))

/-- FalkorDBDatabase._create_spatial_relationship. -/
def createSpatialRelationship (g : Graph) (relId : String)
    (fromIds : List String) (toId : String) : Graph × Bool :=
  if fromIds.isEmpty || toId = "" then (g, false)
  else
    let r := fromIds.foldl (fun acc fromId =>
      let p := Neo4j.createEdgePair acc.1 fromId toId "CONTAINED_IN" relId
      (p.1, acc.2 + (if p.2 then 1 else 0))) (g, 0)
    (r.1, decide (0 < r.2))

/-- FalkorDBDatabase._create_group_relationship. -/
def createGroupRelationship (g : Graph) (relId : String)
    (fromIds : List String) (toId : String) : Graph × Bool :=
  if fromIds.isEmpty || toId = "" then (g, false)
  else
    let r := fromIds.foldl (fun acc fromId =>
      let p := Neo4j.createEdgePair acc.1 fromId toId "ASSIGNED_TO" relId
      (p.1, acc.2 + (if p.2 then 1 else 0))) (g, 0)
    (r.1, decide (0 < r.2))

/-- FalkorDBDatabase.create_relationship: dispatch on the record type. -/
def create_relationship (g : Graph) : RelRec → Graph × Bool
  | .aggregates rid a bs => createAggregatesRelationship g rid a bs
  | .connects rid a b => createConnectsRelationship g rid a b
  | .hasProperty rid as b => createPropertyRelationship g rid as b
  | .containedIn rid as b => createSpatialRelationship g rid as b
  | .assignedTo rid as b => createGroupRelationship g rid as b

end FalkorDB

/-- The graph writer interface used by IFCToGraphConverter: the three
database methods convert_file calls, over an abstract store type. -/
structure GDB (σ : Type) where
  create_file_node : σ → FileRec → σ × Option String
  create_element_node : σ → ElementRec → Option String → σ × Bool
  create_relationship : σ → RelRec → σ × Bool

/-- IFCToGraphConverter.convert_file: write the file metadata node first,
then parse (the parser result is the parsed argument: none models a parse
failure), then write every element node and every relationship.  The
return value reports only file-node success, parse success and a
non-empty element list; per-write booleans are merely counted for logs. -/
def convert_file {σ : Type} (db : GDB σ) (s : σ) (f : FileRec)
    (parsed : Option (List ElementRec × List RelRec)) : σ × Bool :=
  match db.create_file_node s f with
  | (s1, none) => (s1, false)
  | (s1, some fid) =>
    match parsed with
    | none => (s1, false)
    | some (elems, rels) =>
      if elems.isEmpty then (s1, false)
      else
        let s2 := elems.foldl (fun acc e => (db.create_element_node acc e (some fid)).1) s1
        let s3 := rels.foldl (fun acc r => (db.create_relationship acc r).1) s2
        (s3, true)

/-- IFCToGraphConverter.convert_directory: one result entry per globbed
file, keyed by its path; a per-file exception (modeled by outcome = none)
is recorded as failure and the loop continues with the next file. -/
def convert_directory (files : List String) (outcome : String → Option Bool) :
    List (String × Bool) :=
  files.map (fun f => (f, (outcome f).getD false))

/-- The Neo4j backend packaged as the converter interface, at a
fixed run timestamp. -/
def neoDB (importDate : String) : GDB Graph :=
  { create_file_node := fun g f => Neo4j.create_file_node g f importDate,
    create_element_node := Neo4j.create_element_node,
    create_relationship := Neo4j.create_relationship }

/-- Graph state after importing one parsed file through the Neo4j
backend, as convert_file does. -/
def importFile (g : Graph) (f : FileRec) (importDate : String)
    (elems : List ElementRec) (rels : List RelRec) : Graph :=
  (convert_file (neoDB importDate) g f (some (elems, rels))).1

namespace MainCLI

/-- The environment the import_ifc.py main function runs against: whether
the user interrupts the run, whether the four NEO4J_* variables are set,
whether the input directory exists, the globbed *.ifc files, whether the
database connection succeeds, and the per-file conversion outcome (none
models an exception escaping convert_file). -/
structure Env where
  interrupted : Bool
  envVarsOk : Bool
  inputDirExists : Bool
  ifcFiles : List String
  connectOk : Bool
  fileOutcome : String → Option Bool

/-- Number of successful entries of a results mapping. -/
def successCount (rs : List (String × Bool)) : Nat :=
  (rs.filter (fun p => p.2)).length

/-- Observable outcome of a run: the process exit code and whether the
no-IFC-files warning was emitted. -/
structure RunResult where
  exitCode : Nat
  warnedNoFiles : Bool
deriving DecidableEq, Repr

/-- import_ifc.py main: KeyboardInterrupt maps to 130; missing
configuration, missing input directory or a failed connection return 1
before any conversion; an empty glob returns 0 after a warning; otherwise
the exit code is 0 when all or some files succeeded and 1 when none did. -/
def main (e : Env) : RunResult :=
  if e.interrupted then { exitCode := 130, warnedNoFiles := false }
  else if !e.envVarsOk then { exitCode := 1, warnedNoFiles := false }
  else if !e.inputDirExists then { exitCode := 1, warnedNoFiles := false }
  else if e.ifcFiles.isEmpty then { exitCode := 0, warnedNoFiles := true }
  else if !e.connectOk then { exitCode := 1, warnedNoFiles := false }
  else
    let results := convert_directory e.ifcFiles e.fileOutcome
    if successCount results = results.length && decide (0 < results.length) then
      { exitCode := 0, warnedNoFiles := false }
    else if decide (0 < successCount results) then
      { exitCode := 0, warnedNoFiles := false }
    else { exitCode := 1, warnedNoFiles := false }

end MainCLI

namespace AgentTool

/-- Connection-related keywords checked by Neo4jQueryTool.execute_query. -/
def connKeywords : List String := ["connection", "reset", "refused", "timeout"]

/-- Is pat a prefix of hay (character lists)? -/
def isPrefixList : List Char → List Char → Bool
  | [], _ => true
  | _ :: _, [] => false
  | a :: as, b :: bs => (a == b) && isPrefixList as bs

/-- Does pat occur as a contiguous substring of hay (character lists)? -/
def containsSub (pat : List Char) : List Char → Bool
  | [] => isPrefixList pat []
  | c :: rest => isPrefixList pat (c :: rest) || containsSub pat rest

/-- The Python membership test sub in s on strings. -/
def strContainsSub (hay pat : String) : Bool := containsSub pat.data hay.data

/-- Lower-casing of a string, character by character. -/
def lowerStr (s : String) : String := String.mk (s.data.map Char.toLower)

/-- Keyword test: any(keyword in error_msg.lower() for keyword in ...). -/
def isConnError (msg : String) : Bool :=
  connKeywords.any (fun k => strContainsSub (lowerStr msg) k)

/-- Structured result dictionary returned by execute_query. -/
structure QueryResult where
  success : Bool
  query : String
  error : Option String
  results : List String
deriving DecidableEq, Repr

/-- The retry loop body of Neo4jQueryTool.execute_query over the list of
remaining attempt indices; attempts gives the outcome of session.run on
each attempt (rows, or the text of the raised exception) and reconnect
the outcome of self.connect() at that point. -/
def runAttempts (q : String) (attempts : Nat → Except String (List String))
    (reconnect : Nat → Bool) (maxRetries : Nat) : List Nat → QueryResult
  | [] => { success := false, query := q,
            error := some "Query execution failed after all retry attempts",
            results := [] }
  | attempt :: rest =>
    match attempts attempt with
    | .ok rows => { success := true, query := q, error := none, results := rows }
    | .error msg =>
      if isConnError msg && decide (attempt < maxRetries - 1) && reconnect attempt then
        runAttempts q attempts reconnect maxRetries rest
      else { success := false, query := q, error := some msg, results := [] }

/-- Neo4jQueryTool.execute_query: early return when not connected,
otherwise the bounded retry loop over range(max_retries). -/
def execute_query (q : String) (connected : Bool)
    (attempts : Nat → Except String (List String)) (reconnect : Nat → Bool)
    (maxRetries : Nat := 2) : QueryResult :=
  if !connected then
    { success := false, query := q, error := some "Not connected to database",
      results := [] }
  else runAttempts q attempts reconnect maxRetries (List.range maxRetries)

/-- Neo4jDatabase.create_relationship: the session call is wrapped in
try/except; a raised error is logged and surfaced as a False result, so
no exception crosses the component boundary. -/
def create_relationship_wrapped (txResult : Except String Bool) : Bool :=
  match txResult with
  | .ok b => b
  | .error _ => false

end AgentTool

/-- Pattern match decided on a node skeleton; agrees with nodeMatch for
the two key properties the importer ever matches on. -/
def skelMatch (sk : NSkel) (L : List String) (k : String) (v : Value) : Bool :=
  L.all (fun l => sk.labels.contains l) &&
    ((if k = "fileId" then sk.fid else sk.gid) == some v)

/-- matchNids computed from node skeletons. -/
def matchNidsSkel (sks : List NSkel) (L : List String) (k : String) (v : Value) :
    List Nat :=
  (sks.filter (fun sk => skelMatch sk L k v)).map (·.nid)

/-- edgePresent computed from edge skeletons. -/
def edgePresentSkel (es : List ESkel) (s t : Nat) (ty : String) : Bool :=
  es.any (fun e => e.src == s && e.dst == t && e.typ == ty)

/-- Whether one endpoint pair of a relationship write succeeds against
graph g: both global identifiers resolve to at least one Element node.
This is the per-pair success the write loops count. -/
def pairOk (g : Graph) (a b : String) : Bool :=
  !(matchNids g ["Element"] "globalId" (.str a)).isEmpty &&
  !(matchNids g ["Element"] "globalId" (.str b)).isEmpty

/-- Skeleton of the file metadata node created first by an import into an
empty store. -/
def fileNSkel (fid : String) : NSkel :=
  { nid := 0, labels := ["IFCFile"], gid := none, fid := some (.str fid) }

/-- Skeleton of the element node created for the i-th distinct
(ifcClass, globalId) key of the element stream. -/
def elemNSkel (i : Nat) (key : String × String) : NSkel :=
  { nid := i + 1, labels := ["Element", key.1], gid := some (.str key.2), fid := none }

/-- Distinct (ifcClass, globalId) keys of an element stream, in order of
first occurrence: exactly the element nodes a fresh import creates. -/
def elemKeys (es : List ElementRec) : List (String × String) :=
  es.foldl (fun acc e =>
    if (e.ifcClass, e.globalId) ∈ acc then acc else acc ++ [(e.ifcClass, e.globalId)]) []

/-- Node skeletons of the graph after the node-writing phase of a
fresh run: the file node then one element node per distinct key. -/
def shapeNodes (fid : String) (ks : List (String × String)) : List NSkel :=
  fileNSkel fid :: (ks.enum.map fun p => elemNSkel p.1 p.2)

/-- Edge skeletons after the node-writing phase: one BELONGS_TO_FILE edge
from each element node to the file node. -/
def shapeEdges (ks : List (String × String)) : List ESkel :=
  ks.enum.map fun p => { src := p.1 + 1, dst := 0, typ := "BELONGS_TO_FILE" }

/-- Invariant tying a graph to the node-phase shape of a fresh import. -/
def NodePhase (fid : String) (ks : List (String × String)) (g : Graph) : Prop :=
  g.nodeSkels = shapeNodes fid ks ∧ g.edgeSkels = shapeEdges ks ∧
    g.nextId = ks.length + 1

/-- A graph writer whose element and relationship writes all fail, used
to show the per-file success flag ignores per-write outcomes. -/
def failingDB : GDB Unit :=
  { create_file_node := fun _ _ => ((), some "FILE_w_0"),
    create_element_node := fun _ _ _ => ((), false),
    create_relationship := fun _ _ => ((), false) }

/-- A graph writer with the same file-node behaviour as failingDB whose
element and relationship writes all succeed. -/
def succeedingDB : GDB Unit :=
  { create_file_node := fun _ _ => ((), some "FILE_w_0"),
    create_element_node := fun _ _ _ => ((), true),
    create_relationship := fun _ _ => ((), true) }

/-- Fixture runtime environment: two files, one succeeding. -/
def wEnvPartial : MainCLI.Env :=
  { interrupted := false, envVarsOk := true, inputDirExists := true,
    ifcFiles := ["a.ifc", "b.ifc"], connectOk := true,
    fileOutcome := fun x => if x = "a.ifc" then some true else some false }

/-- Fixture environment: user interrupt. -/
def wEnvInterrupted : MainCLI.Env := { wEnvPartial with interrupted := true }

/-- Fixture environment: empty glob. -/
def wEnvNoFiles : MainCLI.Env := { wEnvPartial with ifcFiles := [] }

/-- Fixture environment: every file fails. -/
def wEnvAllFail : MainCLI.Env :=
  { wEnvPartial with fileOutcome := fun _ => some false }

/-- Fixture file record for witnesses. -/
def wFile : FileRec :=
  { stem := "w", mtime := 0, fileName := "w.ifc", filePath := "/in/w.ifc",
    fileSize := 10, createdDate := "c", modifiedDate := "m" }

/-- Fixture element record for witnesses. -/
def wElem : ElementRec :=
  { globalId := "A", ifcClass := "IfcWall", name := "wall", description := "d",
    objectType := "o", tag := "t", propsJson := none }

/-- Fixture graph holding two Element nodes A and P and nothing else. -/
def wGraphAP : Graph :=
  { nodes := [
      { nid := 0, labels := ["Element", "IfcWall"],
        props := setProp emptyProps "globalId" (.str "A") },
      { nid := 1, labels := ["Element", "IfcPropertySet"],
        props := setProp emptyProps "globalId" (.str "P") }],
    edges := [], nextId := 2 }

/-- Fixture graph holding a single Element node A. -/
def wGraphA : Graph :=
  { nodes := [
      { nid := 0, labels := ["Element", "IfcWall"],
        props := setProp emptyProps "globalId" (.str "A") }],
    edges := [], nextId := 1 }

/-- Fixture graph with one IFCFile node for the file fixture. -/
def wGraphFile : Graph :=
  { nodes := [
      { nid := 0, labels := ["IFCFile"],
        props := setProp emptyProps "fileId" (.str wFile.fileId) }],
    edges := [], nextId := 1 }

/-- The shared loop shape of the multi-endpoint relationship writers:
one independent edge write per endpoint pair, counting successes. -/
def pairFold (g : Graph) (ty rid : String) (ps : List (String × String)) :
    Graph × Nat :=
  ps.foldl (fun acc p =>
    let r := Neo4j.createEdgePair acc.1 p.1 p.2 ty rid
    (r.1, acc.2 + (if r.2 then 1 else 0))) (g, 0)

/-- All edges a relationship record would write are already present in g
(between the endpoint nodes g resolves).  This is the postcondition a
relationship write establishes and the condition under which re-running
it leaves the graph skeleton unchanged. -/
def relPairsPresent (g : Graph) : RelRec → Prop
  | .aggregates _ a bs =>
    (a = "" || bs.isEmpty) = false →
    ∀ b ∈ bs, ∀ s ∈ matchNids g ["Element"] "globalId" (.str a),
      ∀ t ∈ matchNids g ["Element"] "globalId" (.str b),
        edgePresent g s t "AGGREGATES" = true
  | .connects _ a b =>
    (a = "" || b = "") = false →
    ∀ s ∈ matchNids g ["Element"] "globalId" (.str a),
      ∀ t ∈ matchNids g ["Element"] "globalId" (.str b),
        edgePresent g s t "CONNECTS_TO" = true
  | .hasProperty _ _ _ => True
  | .containedIn _ as b =>
    (as.isEmpty || b = "") = false →
    ∀ a ∈ as, ∀ s ∈ matchNids g ["Element"] "globalId" (.str a),
      ∀ t ∈ matchNids g ["Element"] "globalId" (.str b),
        edgePresent g s t "CONTAINED_IN" = true
  | .assignedTo _ as b =>
    (as.isEmpty || b = "") = false →
    ∀ a ∈ as, ∀ s ∈ matchNids g ["Element"] "globalId" (.str a),
      ∀ t ∈ matchNids g ["Element"] "globalId" (.str b),
        edgePresent g s t "ASSIGNED_TO" = true

/-! Basic lemmas about property assignment. -/

theorem setProp_apply (p : Props) (k : String) (v : Value) (k' : String) :
    setProp p k v k' = if k' = k then some v else p k' := rfl

theorem setProp_same (p : Props) (k : String) (v : Value) (h : p k = some v) :
    setProp p k v = p := by
  funext k'
  by_cases hk : k' = k
  · subst hk; simp [setProp, h]
  · simp [setProp, hk]

theorem setProps_cons (p : Props) (kv : String × Value) (rest : List (String × Value)) :
    setProps p (kv :: rest) = setProps (setProp p kv.1 kv.2) rest := rfl

theorem setProps_fileProps_neo_globalId (p : Props) (f : FileRec) (d : String) :
    setProps p (Neo4j.fileProps f d) "globalId" = p "globalId" := by
  simp [setProps, Neo4j.fileProps, setProp]

theorem setProps_fileProps_neo_fileId (p : Props) (f : FileRec) (d : String) :
    setProps p (Neo4j.fileProps f d) "fileId" = some (.str f.fileId) := by
  simp [setProps, Neo4j.fileProps, setProp]

theorem setProps_fileProps_falkor_globalId (p : Props) (f : FileRec) (d : String) :
    setProps p (FalkorDB.fileProps f d) "globalId" = p "globalId" := by
  simp [setProps, FalkorDB.fileProps, setProp]

theorem setProps_fileProps_falkor_fileId (p : Props) (f : FileRec) (d : String) :
    setProps p (FalkorDB.fileProps f d) "fileId" = p "fileId" := by
  simp [setProps, FalkorDB.fileProps, setProp]

theorem elemProps_neo_eq_cons (e : ElementRec) (fid : Option String) :
    Neo4j.elemProps e fid =
      ("globalId", Value.str e.globalId) :: FalkorDB.elemProps e fid := rfl

theorem fileProps_neo_eq_cons (f : FileRec) (d : String) :
    Neo4j.fileProps f d = ("fileId", Value.str f.fileId) :: FalkorDB.fileProps f d := rfl

theorem setProps_elemProps_falkor_globalId (p : Props) (e : ElementRec)
    (fid : Option String) :
    setProps p (FalkorDB.elemProps e fid) "globalId" = p "globalId" := by
  cases fid <;> cases h : e.propsJson <;>
    simp [setProps, FalkorDB.elemProps, setProp, h]

theorem setProps_elemProps_falkor_fileId (p : Props) (e : ElementRec)
    (fid : Option String) :
    setProps p (FalkorDB.elemProps e fid) "fileId" = p "fileId" := by
  cases fid <;> cases h : e.propsJson <;>
    simp [setProps, FalkorDB.elemProps, setProp, h]

theorem setProps_elemProps_neo_globalId (p : Props) (e : ElementRec)
    (fid : Option String) :
    setProps p (Neo4j.elemProps e fid) "globalId" = some (.str e.globalId) := by
  rw [elemProps_neo_eq_cons, setProps_cons]
  rw [setProps_elemProps_falkor_globalId]
  simp [setProp]

theorem setProps_elemProps_neo_fileId (p : Props) (e : ElementRec)
    (fid : Option String) :
    setProps p (Neo4j.elemProps e fid) "fileId" = p "fileId" := by
  rw [elemProps_neo_eq_cons, setProps_cons]
  rw [setProps_elemProps_falkor_fileId]
  simp [setProp]

/-! Skeleton correspondence: pattern matching and edge presence are
functions of the graph skeleton. -/

theorem nodeMatch_eq_skelMatch (n : GNode) (L : List String) (v : Value)
    (k : String) (hk : k = "globalId" ∨ k = "fileId") :
    nodeMatch n L k v = skelMatch (nodeSkel n) L k v := by
  rcases hk with hk | hk <;> subst hk <;> simp [nodeMatch, skelMatch, nodeSkel]

theorem matchNids_eq_skel (g : Graph) (L : List String) (v : Value)
    (k : String) (hk : k = "globalId" ∨ k = "fileId") :
    matchNids g L k v = matchNidsSkel g.nodeSkels L k v := by
  unfold matchNids matchNidsSkel Graph.nodeSkels
  rw [List.filter_map, List.map_map]
  rw [List.filter_congr (fun n _ => nodeMatch_eq_skelMatch n L v k hk)]
  rfl

theorem any_edgeMatch_eq_skel (es : List GEdge) (s t : Nat) (ty : String) :
    es.any (fun e => edgeMatch e s t ty) = edgePresentSkel (es.map edgeSkel) s t ty := by
  induction es with
  | nil => rfl
  | cons e rest ih =>
    simp only [List.any_cons, List.map_cons, edgePresentSkel] at ih ⊢
    rw [ih]
    rfl

theorem edgePresent_eq_skel (g : Graph) (s t : Nat) (ty : String) :
    edgePresent g s t ty = edgePresentSkel g.edgeSkels s t ty :=
  any_edgeMatch_eq_skel g.edges s t ty

/-! Lemmas about single edge merges. -/

theorem mergeEdge_nodes (g : Graph) (s t : Nat) (ty : String)
    (P : List (String × Value)) : (mergeEdge g s t ty P).nodes = g.nodes := by
  unfold mergeEdge; split <;> rfl

theorem mergeEdge_nextId (g : Graph) (s t : Nat) (ty : String)
    (P : List (String × Value)) : (mergeEdge g s t ty P).nextId = g.nextId := by
  unfold mergeEdge; split <;> rfl

theorem mergeEdge_edgeSkels (g : Graph) (s t : Nat) (ty : String)
    (P : List (String × Value)) :
    (mergeEdge g s t ty P).edgeSkels =
      if edgePresent g s t ty then g.edgeSkels
      else g.edgeSkels ++ [{ src := s, dst := t, typ := ty }] := by
  unfold mergeEdge
  split
  · next h =>
    simp only [h, if_true, Graph.edgeSkels, List.map_map]
    apply List.map_congr_left
    intro e _
    by_cases he : edgeMatch e s t ty <;> simp [he, edgeSkel]
  · next h =>
    simp only [eq_false_of_ne_true h, if_false, Graph.edgeSkels, List.map_append]
    rfl

theorem edgePresent_mergeEdge_mono (g : Graph) (s t a b : Nat) (ty ty' : String)
    (P : List (String × Value)) (h : edgePresent g a b ty' = true) :
    edgePresent (mergeEdge g s t ty P) a b ty' = true := by
  rw [edgePresent_eq_skel] at h ⊢
  rw [mergeEdge_edgeSkels]
  split
  · exact h
  · unfold edgePresentSkel at h ⊢
    rw [List.any_append, h, Bool.true_or]

theorem mergeEdge_present_self (g : Graph) (s t : Nat) (ty : String)
    (P : List (String × Value)) :
    edgePresent (mergeEdge g s t ty P) s t ty = true := by
  rw [edgePresent_eq_skel, mergeEdge_edgeSkels]
  by_cases h : edgePresent g s t ty
  · simp only [h, if_true]
    rw [← edgePresent_eq_skel]; exact h
  · simp only [h, Bool.false_eq_true, if_false]
    unfold edgePresentSkel
    rw [List.any_append]
    simp [edgePresentSkel]

/-! Lemmas about the nested edge-merge loops. -/

theorem foldRow_nodes (ty : String) (P : List (String × Value)) (s : Nat)
    (ts : List Nat) (g : Graph) :
    (ts.foldl (fun acc t => mergeEdge acc s t ty P) g).nodes = g.nodes := by
  induction ts generalizing g with
  | nil => rfl
  | cons t rest ih => rw [List.foldl_cons, ih, mergeEdge_nodes]

theorem foldRow_nextId (ty : String) (P : List (String × Value)) (s : Nat)
    (ts : List Nat) (g : Graph) :
    (ts.foldl (fun acc t => mergeEdge acc s t ty P) g).nextId = g.nextId := by
  induction ts generalizing g with
  | nil => rfl
  | cons t rest ih => rw [List.foldl_cons, ih, mergeEdge_nextId]

theorem foldRow_present_mono (ty ty' : String) (P : List (String × Value))
    (s a b : Nat) (ts : List Nat) (g : Graph) (h : edgePresent g a b ty' = true) :
    edgePresent (ts.foldl (fun acc t => mergeEdge acc s t ty P) g) a b ty' = true := by
  induction ts generalizing g with
  | nil => exact h
  | cons t rest ih =>
    rw [List.foldl_cons]
    exact ih _ (edgePresent_mergeEdge_mono g s t a b ty ty' P h)

theorem foldRow_present_self (ty : String) (P : List (String × Value)) (s : Nat)
    (ts : List Nat) (g : Graph) (t : Nat) (ht : t ∈ ts) :
    edgePresent (ts.foldl (fun acc t => mergeEdge acc s t ty P) g) s t ty = true := by
  induction ts generalizing g with
  | nil => cases ht
  | cons t0 rest ih =>
    rw [List.foldl_cons]
    rcases List.mem_cons.mp ht with h | h
    · subst h
      exact foldRow_present_mono ty ty P s s t rest _ (mergeEdge_present_self g s t ty P)
    · exact ih _ h

theorem foldRow_skels_of_present (ty : String) (P : List (String × Value)) (s : Nat)
    (ts : List Nat) (g : Graph) (h : ∀ t ∈ ts, edgePresent g s t ty = true) :
    (ts.foldl (fun acc t => mergeEdge acc s t ty P) g).edgeSkels = g.edgeSkels := by
  induction ts generalizing g with
  | nil => rfl
  | cons t rest ih =>
    rw [List.foldl_cons]
    have hp : edgePresent g s t ty = true := h t (List.mem_cons_self t rest)
    have hskel : (mergeEdge g s t ty P).edgeSkels = g.edgeSkels := by
      rw [mergeEdge_edgeSkels, hp, if_pos rfl]
    rw [ih _ (fun t' ht' => by
      rw [edgePresent_eq_skel, hskel, ← edgePresent_eq_skel]
      exact h t' (List.mem_cons_of_mem t ht')), hskel]

theorem foldRow_skels_append (ty : String) (P : List (String × Value)) (s : Nat)
    (ts : List Nat) (g : Graph) :
    ∃ ext, (ts.foldl (fun acc t => mergeEdge acc s t ty P) g).edgeSkels =
      g.edgeSkels ++ ext := by
  induction ts generalizing g with
  | nil => exact ⟨[], (List.append_nil _).symm⟩
  | cons t rest ih =>
    rw [List.foldl_cons]
    rcases ih (mergeEdge g s t ty P) with ⟨ext, hext⟩
    rw [mergeEdge_edgeSkels] at hext
    by_cases hp : edgePresent g s t ty
    · rw [if_pos hp] at hext
      exact ⟨ext, hext⟩
    · rw [if_neg hp] at hext
      exact ⟨_, by rw [hext, List.append_assoc]⟩

theorem mergeEdgesAll_nodes (g : Graph) (ss ts : List Nat) (ty : String)
    (P : List (String × Value)) : (mergeEdgesAll g ss ts ty P).nodes = g.nodes := by
  unfold mergeEdgesAll
  induction ss generalizing g with
  | nil => rfl
  | cons s rest ih => rw [List.foldl_cons, ih, foldRow_nodes]

theorem mergeEdgesAll_nextId (g : Graph) (ss ts : List Nat) (ty : String)
    (P : List (String × Value)) : (mergeEdgesAll g ss ts ty P).nextId = g.nextId := by
  unfold mergeEdgesAll
  induction ss generalizing g with
  | nil => rfl
  | cons s rest ih => rw [List.foldl_cons, ih, foldRow_nextId]

theorem mergeEdgesAll_present_mono (g : Graph) (ss ts : List Nat) (ty ty' : String)
    (a b : Nat) (P : List (String × Value)) (h : edgePresent g a b ty' = true) :
    edgePresent (mergeEdgesAll g ss ts ty P) a b ty' = true := by
  unfold mergeEdgesAll
  induction ss generalizing g with
  | nil => exact h
  | cons s rest ih =>
    rw [List.foldl_cons]
    exact ih _ (foldRow_present_mono ty ty' P s a b ts g h)

theorem mergeEdgesAll_present (g : Graph) (ss ts : List Nat) (ty : String)
    (P : List (String × Value)) (s t : Nat) (hs : s ∈ ss) (ht : t ∈ ts) :
    edgePresent (mergeEdgesAll g ss ts ty P) s t ty = true := by
  unfold mergeEdgesAll
  induction ss generalizing g with
  | nil => cases hs
  | cons s0 rest ih =>
    rw [List.foldl_cons]
    rcases List.mem_cons.mp hs with h | h
    · subst h
      have := foldRow_present_self ty P s ts g t ht
      exact mergeEdgesAll_present_mono _ rest ts ty ty s t P this
    · exact ih _ h

theorem mergeEdgesAll_skels_of_present (g : Graph) (ss ts : List Nat) (ty : String)
    (P : List (String × Value))
    (h : ∀ s ∈ ss, ∀ t ∈ ts, edgePresent g s t ty = true) :
    (mergeEdgesAll g ss ts ty P).edgeSkels = g.edgeSkels := by
  unfold mergeEdgesAll
  induction ss generalizing g with
  | nil => rfl
  | cons s rest ih =>
    rw [List.foldl_cons]
    have hrow := foldRow_skels_of_present ty P s ts g
      (fun t ht => h s (List.mem_cons_self s rest) t ht)
    rw [ih _ (fun s' hs' t' ht' => by
      rw [edgePresent_eq_skel, hrow, ← edgePresent_eq_skel]
      exact h s' (List.mem_cons_of_mem s hs') t' ht'), hrow]

theorem mergeEdgesAll_skels_append (g : Graph) (ss ts : List Nat) (ty : String)
    (P : List (String × Value)) :
    ∃ ext, (mergeEdgesAll g ss ts ty P).edgeSkels = g.edgeSkels ++ ext := by
  unfold mergeEdgesAll
  induction ss generalizing g with
  | nil => exact ⟨[], (List.append_nil _).symm⟩
  | cons s rest ih =>
    rw [List.foldl_cons]
    rcases foldRow_skels_append ty P s ts g with ⟨e1, h1⟩
    rcases ih (ts.foldl (fun acc t => mergeEdge acc s t ty P) g) with ⟨e2, h2⟩
    exact ⟨e1 ++ e2, by rw [h2, h1, List.append_assoc]⟩

/-! Lemmas about node merges. -/

theorem matchNids_isEmpty_eq (g : Graph) (L : List String) (k : String) (v : Value) :
    (matchNids g L k v).isEmpty =
      (g.nodes.filter (fun n => nodeMatch n L k v)).isEmpty := by
  unfold matchNids
  cases g.nodes.filter (fun n => nodeMatch n L k v) <;> rfl

theorem nodeMatch_props_key (n : GNode) (L : List String) (k : String) (v : Value)
    (h : nodeMatch n L k v = true) : n.props k = some v := by
  unfold nodeMatch at h
  have := (Bool.and_eq_true _ _).mp h
  exact eq_of_beq this.2

theorem mergeNodeSet_matched (g : Graph) (L : List String) (k : String) (v : Value)
    (P : List (String × Value))
    (hm : (g.nodes.filter (fun n => nodeMatch n L k v)).isEmpty = false)
    (hP : ∀ p : Props, p k = some v →
      setProps p P "globalId" = p "globalId" ∧ setProps p P "fileId" = p "fileId") :
    (mergeNodeSet g L k v P).1.nodeSkels = g.nodeSkels ∧
    (mergeNodeSet g L k v P).1.edges = g.edges ∧
    (mergeNodeSet g L k v P).1.nextId = g.nextId ∧
    (mergeNodeSet g L k v P).2 = matchNids g L k v := by
  unfold mergeNodeSet
  simp only [hm, Bool.false_eq_true, if_false]
  refine ⟨?_, by trivial, by trivial, by trivial⟩
  unfold Graph.nodeSkels
  rw [List.map_map]
  apply List.map_congr_left
  intro n _
  by_cases hn : nodeMatch n L k v
  · have hkey := nodeMatch_props_key n L k v hn
    rcases hP n.props hkey with ⟨hg, hf⟩
    simp [Function.comp, hn, nodeSkel, hg, hf]
  · simp [Function.comp, hn]

theorem mergeNodeSet_created (g : Graph) (L : List String) (k : String) (v : Value)
    (P : List (String × Value))
    (hm : (g.nodes.filter (fun n => nodeMatch n L k v)).isEmpty = true) :
    (mergeNodeSet g L k v P).1.nodeSkels = g.nodeSkels ++
      [{ nid := g.nextId, labels := L,
         gid := setProps (setProp emptyProps k v) P "globalId",
         fid := setProps (setProp emptyProps k v) P "fileId" }] ∧
    (mergeNodeSet g L k v P).1.edges = g.edges ∧
    (mergeNodeSet g L k v P).1.nextId = g.nextId + 1 ∧
    (mergeNodeSet g L k v P).2 = [g.nextId] := by
  unfold mergeNodeSet
  simp only [hm, if_true]
  refine ⟨?_, by trivial, by trivial, by trivial⟩
  unfold Graph.nodeSkels
  rw [List.map_append]
  rfl

/-! Lemmas about single endpoint-pair writes and the shared pair loop. -/

theorem matchNids_congr_nodes (g g' : Graph) (h : g'.nodes = g.nodes)
    (L : List String) (k : String) (v : Value) :
    matchNids g' L k v = matchNids g L k v := by
  unfold matchNids
  rw [h]

theorem createEdgePair_nodes (g : Graph) (a b ty rid : String) :
    (Neo4j.createEdgePair g a b ty rid).1.nodes = g.nodes :=
  mergeEdgesAll_nodes g _ _ ty _

theorem createEdgePair_nextId (g : Graph) (a b ty rid : String) :
    (Neo4j.createEdgePair g a b ty rid).1.nextId = g.nextId :=
  mergeEdgesAll_nextId g _ _ ty _

theorem createEdgePair_skels_append (g : Graph) (a b ty rid : String) :
    ∃ ext, (Neo4j.createEdgePair g a b ty rid).1.edgeSkels = g.edgeSkels ++ ext :=
  mergeEdgesAll_skels_append g _ _ ty _

theorem createEdgePair_present (g : Graph) (a b ty rid : String) (s t : Nat)
    (hs : s ∈ matchNids g ["Element"] "globalId" (.str a))
    (ht : t ∈ matchNids g ["Element"] "globalId" (.str b)) :
    edgePresent (Neo4j.createEdgePair g a b ty rid).1 s t ty = true :=
  mergeEdgesAll_present g _ _ ty _ s t hs ht

theorem createEdgePair_present_mono (g : Graph) (a b ty ty' rid : String)
    (x y : Nat) (h : edgePresent g x y ty' = true) :
    edgePresent (Neo4j.createEdgePair g a b ty rid).1 x y ty' = true :=
  mergeEdgesAll_present_mono g _ _ ty ty' x y _ h

theorem createEdgePair_skels_of_present (g : Graph) (a b ty rid : String)
    (h : ∀ s ∈ matchNids g ["Element"] "globalId" (.str a),
      ∀ t ∈ matchNids g ["Element"] "globalId" (.str b),
        edgePresent g s t ty = true) :
    (Neo4j.createEdgePair g a b ty rid).1.edgeSkels = g.edgeSkels :=
  mergeEdgesAll_skels_of_present g _ _ ty _ h

theorem createEdgePair_snd (g : Graph) (a b ty rid : String) :
    (Neo4j.createEdgePair g a b ty rid).2 = pairOk g a b := rfl

theorem pairFold_nodes (g : Graph) (ty rid : String) (ps : List (String × String)) :
    (pairFold g ty rid ps).1.nodes = g.nodes := by
  unfold pairFold
  suffices h : ∀ acc : Graph × Nat,
      (ps.foldl (fun acc p =>
        let r := Neo4j.createEdgePair acc.1 p.1 p.2 ty rid
        (r.1, acc.2 + (if r.2 then 1 else 0))) acc).1.nodes = acc.1.nodes by
    exact h (g, 0)
  induction ps with
  | nil => intro acc; rfl
  | cons p rest ih =>
    intro acc
    rw [List.foldl_cons, ih]
    exact createEdgePair_nodes acc.1 p.1 p.2 ty rid

theorem pairFold_nextId (g : Graph) (ty rid : String) (ps : List (String × String)) :
    (pairFold g ty rid ps).1.nextId = g.nextId := by
  unfold pairFold
  suffices h : ∀ acc : Graph × Nat,
      (ps.foldl (fun acc p =>
        let r := Neo4j.createEdgePair acc.1 p.1 p.2 ty rid
        (r.1, acc.2 + (if r.2 then 1 else 0))) acc).1.nextId = acc.1.nextId by
    exact h (g, 0)
  induction ps with
  | nil => intro acc; rfl
  | cons p rest ih =>
    intro acc
    rw [List.foldl_cons, ih]
    exact createEdgePair_nextId acc.1 p.1 p.2 ty rid

theorem pairFold_skels_append (g : Graph) (ty rid : String)
    (ps : List (String × String)) :
    ∃ ext, (pairFold g ty rid ps).1.edgeSkels = g.edgeSkels ++ ext := by
  unfold pairFold
  suffices h : ∀ acc : Graph × Nat,
      ∃ ext, (ps.foldl (fun acc p =>
        let r := Neo4j.createEdgePair acc.1 p.1 p.2 ty rid
        (r.1, acc.2 + (if r.2 then 1 else 0))) acc).1.edgeSkels =
        acc.1.edgeSkels ++ ext by
    exact h (g, 0)
  induction ps with
  | nil => intro acc; exact ⟨[], (List.append_nil _).symm⟩
  | cons p rest ih =>
    intro acc
    rw [List.foldl_cons]
    rcases ih _ with ⟨e2, h2⟩
    rcases createEdgePair_skels_append acc.1 p.1 p.2 ty rid with ⟨e1, h1⟩
    exact ⟨e1 ++ e2, by rw [h2, h1, List.append_assoc]⟩

theorem pairFoldAux_present_mono (ty rid : String) (rest : List (String × String)) :
    ∀ (acc : Graph × Nat) (x y : Nat) (ty' : String),
      edgePresent acc.1 x y ty' = true →
      edgePresent (rest.foldl (fun acc p =>
        let r := Neo4j.createEdgePair acc.1 p.1 p.2 ty rid
        (r.1, acc.2 + (if r.2 then 1 else 0))) acc).1 x y ty' = true := by
  induction rest with
  | nil => exact fun acc x y ty' h => h
  | cons q qs ih =>
    intro acc x y ty' h
    rw [List.foldl_cons]
    apply ih
    show edgePresent (Neo4j.createEdgePair acc.1 q.1 q.2 ty rid).1 x y ty' = true
    exact createEdgePair_present_mono acc.1 q.1 q.2 ty ty' rid x y h

theorem pairFold_present_mono (g : Graph) (ty ty' rid : String)
    (ps : List (String × String)) (x y : Nat) (h : edgePresent g x y ty' = true) :
    edgePresent (pairFold g ty rid ps).1 x y ty' = true :=
  pairFoldAux_present_mono ty rid ps (g, 0) x y ty' h

theorem pairFold_present (g : Graph) (ty rid : String) (ps : List (String × String))
    (a b : String) (hp : (a, b) ∈ ps) (s t : Nat)
    (hs : s ∈ matchNids g ["Element"] "globalId" (.str a))
    (ht : t ∈ matchNids g ["Element"] "globalId" (.str b)) :
    edgePresent (pairFold g ty rid ps).1 s t ty = true := by
  unfold pairFold
  suffices h : ∀ acc : Graph × Nat, acc.1.nodes = g.nodes →
      edgePresent (ps.foldl (fun acc p =>
        let r := Neo4j.createEdgePair acc.1 p.1 p.2 ty rid
        (r.1, acc.2 + (if r.2 then 1 else 0))) acc).1 s t ty = true by
    exact h (g, 0) rfl
  induction ps with
  | nil => cases hp
  | cons p rest ih =>
    intro acc hacc
    rw [List.foldl_cons]
    rcases List.mem_cons.mp hp with h | h
    · subst h
      have hs' : s ∈ matchNids acc.1 ["Element"] "globalId" (.str a) := by
        rw [matchNids_congr_nodes g acc.1 hacc]
        exact hs
      have ht' : t ∈ matchNids acc.1 ["Element"] "globalId" (.str b) := by
        rw [matchNids_congr_nodes g acc.1 hacc]
        exact ht
      have hpres := createEdgePair_present acc.1 a b ty rid s t hs' ht'
      exact pairFoldAux_present_mono ty rid rest _ s t ty hpres
    · refine ih h _ ?_
      show (Neo4j.createEdgePair acc.1 p.1 p.2 ty rid).1.nodes = g.nodes
      rw [createEdgePair_nodes]
      exact hacc

theorem pairOk_congr_nodes (g g' : Graph) (h : g'.nodes = g.nodes) (a b : String) :
    pairOk g' a b = pairOk g a b := by
  unfold pairOk
  rw [matchNids_congr_nodes g g' h, matchNids_congr_nodes g g' h]

theorem pairFold_count (g : Graph) (ty rid : String) (ps : List (String × String)) :
    (pairFold g ty rid ps).2 = (ps.filter (fun p => pairOk g p.1 p.2)).length := by
  unfold pairFold
  suffices h : ∀ acc : Graph × Nat, acc.1.nodes = g.nodes →
      (ps.foldl (fun acc p =>
        let r := Neo4j.createEdgePair acc.1 p.1 p.2 ty rid
        (r.1, acc.2 + (if r.2 then 1 else 0))) acc).2 =
      acc.2 + (ps.filter (fun p => pairOk g p.1 p.2)).length by
    have := h (g, 0) rfl
    simpa using this
  induction ps with
  | nil => intro acc _; simp
  | cons p rest ih =>
    intro acc hacc
    rw [List.foldl_cons]
    have hstep : (Neo4j.createEdgePair acc.1 p.1 p.2 ty rid).2 = pairOk g p.1 p.2 := by
      rw [createEdgePair_snd, pairOk_congr_nodes g acc.1 hacc]
    have hnodes : (Neo4j.createEdgePair acc.1 p.1 p.2 ty rid).1.nodes = g.nodes := by
      rw [createEdgePair_nodes]; exact hacc
    rw [ih _ hnodes]
    show acc.2 + (if (Neo4j.createEdgePair acc.1 p.1 p.2 ty rid).2 then 1 else 0) + _ = _
    rw [hstep]
    by_cases hp : pairOk g p.1 p.2
    · simp [List.filter_cons, hp, Nat.add_assoc, Nat.add_comm 1]
    · simp [List.filter_cons, hp]

theorem aggregates_eq_pairFold (g : Graph) (rid a : String) (bs : List String) :
    Neo4j.createAggregatesRelationship g rid a bs =
      if (a = "" || bs.isEmpty) then (g, false)
      else ((pairFold g "AGGREGATES" rid (bs.map (fun b => (a, b)))).1,
        decide (0 < (pairFold g "AGGREGATES" rid (bs.map (fun b => (a, b)))).2)) := by
  unfold Neo4j.createAggregatesRelationship pairFold
  rw [List.foldl_map]

theorem spatial_eq_pairFold (g : Graph) (rid : String) (as : List String) (b : String) :
    Neo4j.createSpatialRelationship g rid as b =
      if (as.isEmpty || b = "") then (g, false)
      else ((pairFold g "CONTAINED_IN" rid (as.map (fun a => (a, b)))).1,
        decide (0 < (pairFold g "CONTAINED_IN" rid (as.map (fun a => (a, b)))).2)) := by
  unfold Neo4j.createSpatialRelationship pairFold
  rw [List.foldl_map]

theorem group_eq_pairFold (g : Graph) (rid : String) (as : List String) (b : String) :
    Neo4j.createGroupRelationship g rid as b =
      if (as.isEmpty || b = "") then (g, false)
      else ((pairFold g "ASSIGNED_TO" rid (as.map (fun a => (a, b)))).1,
        decide (0 < (pairFold g "ASSIGNED_TO" rid (as.map (fun a => (a, b)))).2)) := by
  unfold Neo4j.createGroupRelationship pairFold
  rw [List.foldl_map]

theorem falkor_property_eq_pairFold (g : Graph) (rid : String) (as : List String)
    (b : String) :
    FalkorDB.createPropertyRelationship g rid as b =
      if (as.isEmpty || b = "") then (g, false)
      else ((pairFold g "HAS_PROPERTY" rid (as.map (fun a => (a, b)))).1,
        decide (0 < (pairFold g "HAS_PROPERTY" rid (as.map (fun a => (a, b)))).2)) := by
  unfold FalkorDB.createPropertyRelationship pairFold
  rw [List.foldl_map]

/-! Skeleton lemmas about the file-node and element-node writes. -/

theorem edgePresent_congr_edges (g g' : Graph) (h : g'.edges = g.edges)
    (s t : Nat) (ty : String) : edgePresent g' s t ty = edgePresent g s t ty := by
  unfold edgePresent
  rw [h]

theorem mergeNodeSet_snd_isEmpty (g : Graph) (L : List String) (k : String)
    (v : Value) (P : List (String × Value)) :
    (mergeNodeSet g L k v P).2.isEmpty = false := by
  simp only [mergeNodeSet]
  split
  · rfl
  · next h =>
    cases hm : g.nodes.filter (fun n => nodeMatch n L k v) with
    | nil => rw [hm] at h; exact absurd rfl h
    | cons x xs => rfl

theorem create_file_node_fst (g : Graph) (f : FileRec) (d : String) :
    (Neo4j.create_file_node g f d).1 =
      (mergeNodeSet g ["IFCFile"] "fileId" (.str f.fileId) (Neo4j.fileProps f d)).1 := by
  simp only [Neo4j.create_file_node]
  split <;> rfl

theorem create_file_node_snd (g : Graph) (f : FileRec) (d : String) :
    (Neo4j.create_file_node g f d).2 = some f.fileId := by
  simp only [Neo4j.create_file_node]
  rw [if_neg]
  rw [mergeNodeSet_snd_isEmpty]
  exact fun h => nomatch h

theorem neo_file_hP (f : FileRec) (d : String) (p : Props)
    (h : p "fileId" = some (.str f.fileId)) :
    setProps p (Neo4j.fileProps f d) "globalId" = p "globalId" ∧
    setProps p (Neo4j.fileProps f d) "fileId" = p "fileId" := by
  refine ⟨setProps_fileProps_neo_globalId p f d, ?_⟩
  rw [setProps_fileProps_neo_fileId, h]

theorem neo_file_skel_matched (g : Graph) (f : FileRec) (d : String)
    (hm : (matchNids g ["IFCFile"] "fileId" (.str f.fileId)).isEmpty = false) :
    (Neo4j.create_file_node g f d).1.nodeSkels = g.nodeSkels ∧
    (Neo4j.create_file_node g f d).1.edges = g.edges ∧
    (Neo4j.create_file_node g f d).1.nextId = g.nextId := by
  rw [matchNids_isEmpty_eq] at hm
  have := mergeNodeSet_matched g ["IFCFile"] "fileId" (.str f.fileId)
    (Neo4j.fileProps f d) hm (fun p hp => neo_file_hP f d p hp)
  rw [create_file_node_fst]
  exact ⟨this.1, this.2.1, this.2.2.1⟩

theorem neo_file_skel_created (g : Graph) (f : FileRec) (d : String)
    (hm : (matchNids g ["IFCFile"] "fileId" (.str f.fileId)).isEmpty = true) :
    (Neo4j.create_file_node g f d).1.nodeSkels = g.nodeSkels ++
      [{ nid := g.nextId, labels := ["IFCFile"], gid := none,
         fid := some (.str f.fileId) }] ∧
    (Neo4j.create_file_node g f d).1.edges = g.edges ∧
    (Neo4j.create_file_node g f d).1.nextId = g.nextId + 1 := by
  rw [matchNids_isEmpty_eq] at hm
  have := mergeNodeSet_created g ["IFCFile"] "fileId" (.str f.fileId)
    (Neo4j.fileProps f d) hm
  rw [create_file_node_fst]
  refine ⟨?_, this.2.1, this.2.2.1⟩
  rw [this.1]
  have hg : setProps (setProp emptyProps "fileId" (.str f.fileId))
      (Neo4j.fileProps f d) "globalId" = none := by
    rw [setProps_fileProps_neo_globalId]
    rfl
  have hf : setProps (setProp emptyProps "fileId" (.str f.fileId))
      (Neo4j.fileProps f d) "fileId" = some (.str f.fileId) :=
    setProps_fileProps_neo_fileId _ f d
  rw [hg, hf]

theorem neo_elem_hP (e : ElementRec) (fid : Option String) (p : Props)
    (h : p "globalId" = some (.str e.globalId)) :
    setProps p (Neo4j.elemProps e fid) "globalId" = p "globalId" ∧
    setProps p (Neo4j.elemProps e fid) "fileId" = p "fileId" := by
  refine ⟨?_, setProps_elemProps_neo_fileId p e fid⟩
  rw [setProps_elemProps_neo_globalId, h]

theorem neo_elem_skel_matched (g : Graph) (e : ElementRec) (fid : String)
    (hm : (matchNids g ["Element", e.ifcClass] "globalId" (.str e.globalId)).isEmpty
      = false)
    (hpairs : ∀ s ∈ matchNids g ["Element", e.ifcClass] "globalId" (.str e.globalId),
      ∀ t ∈ matchNids g ["IFCFile"] "fileId" (.str fid),
        edgePresent g s t "BELONGS_TO_FILE" = true) :
    (Neo4j.create_element_node g e (some fid)).1.nodeSkels = g.nodeSkels ∧
    (Neo4j.create_element_node g e (some fid)).1.edgeSkels = g.edgeSkels ∧
    (Neo4j.create_element_node g e (some fid)).1.nextId = g.nextId := by
  rw [matchNids_isEmpty_eq] at hm
  have hmer := mergeNodeSet_matched g ["Element", e.ifcClass] "globalId"
    (.str e.globalId) (Neo4j.elemProps e (some fid)) hm
    (fun p hp => neo_elem_hP e (some fid) p hp)
  show (mergeEdgesAll _ _ _ _ _).nodeSkels = _ ∧
    (mergeEdgesAll _ _ _ _ _).edgeSkels = _ ∧ (mergeEdgesAll _ _ _ _ _).nextId = _
  set r := mergeNodeSet g ["Element", e.ifcClass] "globalId" (.str e.globalId)
    (Neo4j.elemProps e (some fid)) with hr
  have hfn : matchNids r.1 ["IFCFile"] "fileId" (.str fid) =
      matchNids g ["IFCFile"] "fileId" (.str fid) := by
    rw [matchNids_eq_skel _ _ _ _ (Or.inr rfl), hmer.1,
      ← matchNids_eq_skel _ _ _ _ (Or.inr rfl)]
  have hpairs2 : ∀ s ∈ r.2, ∀ t ∈ matchNids r.1 ["IFCFile"] "fileId" (.str fid),
      edgePresent r.1 s t "BELONGS_TO_FILE" = true := by
    intro s hs t ht
    rw [hfn] at ht
    rw [hmer.2.2.2] at hs
    rw [edgePresent_congr_edges g r.1 hmer.2.1]
    exact hpairs s hs t ht
  have hskels := mergeEdgesAll_skels_of_present r.1 r.2
    (matchNids r.1 ["IFCFile"] "fileId" (.str fid)) "BELONGS_TO_FILE" [] hpairs2
  refine ⟨?_, ?_, ?_⟩
  · unfold Graph.nodeSkels
    rw [mergeEdgesAll_nodes]
    exact hmer.1
  · rw [hskels]
    unfold Graph.edgeSkels
    rw [hmer.2.1]
  · rw [mergeEdgesAll_nextId]
    exact hmer.2.2.1

/-! Shape of the graph built by a fresh import (C1 machinery). -/

theorem matchNidsSkel_append (S T : List NSkel) (L : List String) (k : String)
    (v : Value) :
    matchNidsSkel (S ++ T) L k v = matchNidsSkel S L k v ++ matchNidsSkel T L k v := by
  unfold matchNidsSkel
  rw [List.filter_append, List.map_append]

theorem matchNids_nonempty_of_append (g g' : Graph) (ext : List NSkel)
    (h : g'.nodeSkels = g.nodeSkels ++ ext) (L : List String) (v : Value)
    (k : String) (hk : k = "globalId" ∨ k = "fileId")
    (hne : (matchNids g L k v).isEmpty = false) :
    (matchNids g' L k v).isEmpty = false := by
  rw [matchNids_eq_skel _ _ _ _ hk] at hne ⊢
  rw [h, matchNidsSkel_append]
  cases h1 : matchNidsSkel g.nodeSkels L k v with
  | nil => rw [h1] at hne; simp at hne
  | cons x xs => rfl

theorem skelMatch_fileNSkel_self (fid : String) :
    skelMatch (fileNSkel fid) ["IFCFile"] "fileId" (.str fid) = true := by
  simp [skelMatch, fileNSkel]

theorem skelMatch_elemNSkel_file (i : Nat) (key : String × String) (v : Value) :
    skelMatch (elemNSkel i key) ["IFCFile"] "fileId" v = false := by
  simp [skelMatch, elemNSkel]

theorem skelMatch_fileNSkel_elem (fid : String) (c : String) (v : Value) :
    skelMatch (fileNSkel fid) ["Element", c] "globalId" v = false := by
  simp [skelMatch, fileNSkel]

theorem skelMatch_elemNSkel_self (i : Nat) (c gid : String) :
    skelMatch (elemNSkel i (c, gid)) ["Element", c] "globalId" (.str gid) = true := by
  simp [skelMatch, elemNSkel]

theorem nodePhase_file_match (fid : String) (ks : List (String × String)) (g : Graph)
    (h : NodePhase fid ks g) :
    matchNids g ["IFCFile"] "fileId" (.str fid) = [0] := by
  rw [matchNids_eq_skel _ _ _ _ (Or.inr rfl), h.1]
  unfold shapeNodes matchNidsSkel
  rw [List.filter_cons, skelMatch_fileNSkel_self]
  have he : (ks.enum.map (fun p => elemNSkel p.1 p.2)).filter
      (fun sk => skelMatch sk ["IFCFile"] "fileId" (.str fid)) = [] := by
    rw [List.filter_eq_nil_iff]
    intro sk hsk
    rcases List.mem_map.mp hsk with ⟨p, _, rfl⟩
    rw [skelMatch_elemNSkel_file]
    exact fun hcon => nomatch hcon
  simp only [if_pos rfl, he]
  rfl

theorem nodePhase_belongs (fid : String) (ks : List (String × String)) (g : Graph)
    (h : NodePhase fid ks g) (c gid : String) :
    ∀ s ∈ matchNids g ["Element", c] "globalId" (.str gid),
    ∀ t ∈ matchNids g ["IFCFile"] "fileId" (.str fid),
      edgePresent g s t "BELONGS_TO_FILE" = true := by
  intro s hs t ht
  rw [nodePhase_file_match fid ks g h] at ht
  have ht0 : t = 0 := by simpa using ht
  subst ht0
  rw [matchNids_eq_skel _ _ _ _ (Or.inl rfl), h.1] at hs
  unfold shapeNodes matchNidsSkel at hs
  rcases List.mem_map.mp hs with ⟨sk, hsk, rfl⟩
  have hsk' := List.mem_filter.mp hsk
  rcases List.mem_cons.mp hsk'.1 with hfile | helem
  · rw [hfile] at hsk'
    rw [skelMatch_fileNSkel_elem] at hsk'
    exact absurd hsk'.2 (by simp)
  · rcases List.mem_map.mp helem with ⟨p, hp, rfl⟩
    rw [edgePresent_eq_skel, h.2.1]
    unfold shapeEdges edgePresentSkel
    apply List.any_eq_true.mpr
    refine ⟨{ src := p.1 + 1, dst := 0, typ := "BELONGS_TO_FILE" },
      List.mem_map.mpr ⟨p, hp, rfl⟩, ?_⟩
    show ((p.1 + 1 == (elemNSkel p.1 p.2).nid) && (0 == 0) &&
      ("BELONGS_TO_FILE" == "BELONGS_TO_FILE")) = true
    simp [elemNSkel]

theorem mem_enum_fst_lt {α : Type} (l : List α) (p : Nat × α) (hp : p ∈ l.enum) :
    p.1 < l.length := by
  have h := List.mem_enum_iff_getElem?.mp hp
  by_contra hlt
  rw [List.getElem?_eq_none (Nat.le_of_not_lt hlt)] at h
  exact nomatch h

theorem shapeNodes_append_key (fid : String) (ks : List (String × String))
    (key : String × String) :
    shapeNodes fid (ks ++ [key]) =
      shapeNodes fid ks ++ [elemNSkel ks.length key] := by
  unfold shapeNodes
  rw [List.enum_append, List.map_append, List.enumFrom_singleton]
  rfl

theorem shapeEdges_append_key (ks : List (String × String)) (key : String × String) :
    shapeEdges (ks ++ [key]) =
      shapeEdges ks ++ [{ src := ks.length + 1, dst := 0, typ := "BELONGS_TO_FILE" }] := by
  unfold shapeEdges
  rw [List.enum_append, List.map_append, List.enumFrom_singleton]
  rfl

theorem shapeEdges_absent (ks : List (String × String)) :
    edgePresentSkel (shapeEdges ks) (ks.length + 1) 0 "BELONGS_TO_FILE" = false := by
  unfold edgePresentSkel shapeEdges
  rw [List.any_eq_false]
  intro x hx
  rcases List.mem_map.mp hx with ⟨p, hp, rfl⟩
  have hlt := mem_enum_fst_lt ks p hp
  intro hcon
  have h1 := (Bool.and_eq_true _ _).mp hcon
  have h2 := (Bool.and_eq_true _ _).mp h1.1
  have := Nat.succ_injective (eq_of_beq h2.1)
  omega

theorem nodePhase_file_step (f : FileRec) (d : String) :
    NodePhase f.fileId [] (Neo4j.create_file_node emptyGraph f d).1 := by
  have hm : (matchNids emptyGraph ["IFCFile"] "fileId" (.str f.fileId)).isEmpty = true := rfl
  have h := neo_file_skel_created emptyGraph f d hm
  refine ⟨?_, ?_, ?_⟩
  · rw [h.1]; rfl
  · show Graph.edgeSkels _ = _
    unfold Graph.edgeSkels
    rw [h.2.1]
    rfl
  · rw [h.2.2]; rfl

theorem nodePhase_elem_step (fid : String) (ks : List (String × String)) (g : Graph)
    (h : NodePhase fid ks g) (e : ElementRec) :
    ∃ ks', (ks' = ks ∨ ks' = ks ++ [(e.ifcClass, e.globalId)]) ∧
      NodePhase fid ks' (Neo4j.create_element_node g e (some fid)).1 ∧
      (matchNids (Neo4j.create_element_node g e (some fid)).1
        ["Element", e.ifcClass] "globalId" (.str e.globalId)).isEmpty = false := by
  by_cases hm : (matchNids g ["Element", e.ifcClass] "globalId"
      (.str e.globalId)).isEmpty = true
  · -- no existing match: a fresh element node and its file edge are created
    rw [matchNids_isEmpty_eq] at hm
    have hcre := mergeNodeSet_created g ["Element", e.ifcClass] "globalId"
      (.str e.globalId) (Neo4j.elemProps e (some fid)) hm
    have hgid : setProps (setProp emptyProps "globalId" (.str e.globalId))
        (Neo4j.elemProps e (some fid)) "globalId" = some (.str e.globalId) :=
      setProps_elemProps_neo_globalId _ e _
    have hfid : setProps (setProp emptyProps "globalId" (.str e.globalId))
        (Neo4j.elemProps e (some fid)) "fileId" = none := by
      rw [setProps_elemProps_neo_fileId]
      simp [setProp, emptyProps]
    set r := mergeNodeSet g ["Element", e.ifcClass] "globalId" (.str e.globalId)
      (Neo4j.elemProps e (some fid)) with hr
    have hnid : g.nextId = ks.length + 1 := h.2.2
    have hskels1 : r.1.nodeSkels = shapeNodes fid ks ++
        [elemNSkel ks.length (e.ifcClass, e.globalId)] := by
      rw [hcre.1, hgid, hfid, h.1, hnid]
      rfl
    -- the file node is still the only file match
    have hfm : matchNids r.1 ["IFCFile"] "fileId" (.str fid) = [0] := by
      rw [matchNids_eq_skel _ _ _ _ (Or.inr rfl), hskels1, matchNidsSkel_append]
      have h1 : matchNidsSkel (shapeNodes fid ks) ["IFCFile"] "fileId" (.str fid)
          = [0] := by
        rw [← h.1, ← matchNids_eq_skel _ _ _ _ (Or.inr rfl)]
        exact nodePhase_file_match fid ks g h
      have h2 : matchNidsSkel [elemNSkel ks.length (e.ifcClass, e.globalId)]
          ["IFCFile"] "fileId" (.str fid) = [] := by
        unfold matchNidsSkel
        rw [List.filter_cons, skelMatch_elemNSkel_file]
        rfl
      rw [h1, h2]
      rfl
  -- assemble the created node and edge
    refine ⟨ks ++ [(e.ifcClass, e.globalId)], Or.inr rfl, ⟨?_, ?_, ?_⟩, ?_⟩
    · show (mergeEdgesAll r.1 r.2 (matchNids r.1 ["IFCFile"] "fileId" (.str fid))
        "BELONGS_TO_FILE" []).nodeSkels = _
      unfold Graph.nodeSkels
      rw [mergeEdgesAll_nodes]
      show r.1.nodeSkels = _
      rw [hskels1, shapeNodes_append_key]
    · show (mergeEdgesAll r.1 r.2 (matchNids r.1 ["IFCFile"] "fileId" (.str fid))
        "BELONGS_TO_FILE" []).edgeSkels = _
      rw [hfm, hcre.2.2.2, hnid]
      show (mergeEdge r.1 (ks.length + 1) 0 "BELONGS_TO_FILE" []).edgeSkels = _
      rw [mergeEdge_edgeSkels]
      have habs : edgePresent r.1 (ks.length + 1) 0 "BELONGS_TO_FILE" = false := by
        rw [edgePresent_eq_skel]
        have : r.1.edgeSkels = shapeEdges ks := by
          unfold Graph.edgeSkels
          rw [hcre.2.1]
          exact h.2.1
        rw [this]
        exact shapeEdges_absent ks
      rw [habs]
      simp only [Bool.false_eq_true, if_false]
      rw [shapeEdges_append_key]
      congr 1
      unfold Graph.edgeSkels
      rw [hcre.2.1]
      exact h.2.1
    · show (mergeEdgesAll r.1 r.2 (matchNids r.1 ["IFCFile"] "fileId" (.str fid))
        "BELONGS_TO_FILE" []).nextId = _
      rw [mergeEdgesAll_nextId, hcre.2.2.1, hnid]
      simp [List.length_append]
    · show (matchNids (mergeEdgesAll r.1 r.2
        (matchNids r.1 ["IFCFile"] "fileId" (.str fid)) "BELONGS_TO_FILE" [])
          ["Element", e.ifcClass] "globalId" (.str e.globalId)).isEmpty = false
      rw [matchNids_eq_skel _ _ _ _ (Or.inl rfl)]
      unfold Graph.nodeSkels
      rw [mergeEdgesAll_nodes]
      show (matchNidsSkel r.1.nodeSkels _ _ _).isEmpty = false
      rw [hskels1, matchNidsSkel_append]
      have h2 : matchNidsSkel [elemNSkel ks.length (e.ifcClass, e.globalId)]
          ["Element", e.ifcClass] "globalId" (.str e.globalId) =
          [ks.length + 1] := by
        unfold matchNidsSkel
        rw [List.filter_cons, skelMatch_elemNSkel_self]
        rfl
      rw [h2]
      cases matchNidsSkel (shapeNodes fid ks) ["Element", e.ifcClass] "globalId"
        (.str e.globalId) <;> rfl
  · -- an existing node matches: everything is an update, the shape is unchanged
    have hm' : (matchNids g ["Element", e.ifcClass] "globalId"
        (.str e.globalId)).isEmpty = false := by
      cases hval : (matchNids g ["Element", e.ifcClass] "globalId"
        (.str e.globalId)).isEmpty
      · rfl
      · exact absurd hval hm
    have hpairs := nodePhase_belongs fid ks g h e.ifcClass e.globalId
    have hskel := neo_elem_skel_matched g e fid hm' hpairs
    refine ⟨ks, Or.inl rfl, ⟨?_, ?_, ?_⟩, ?_⟩
    · rw [hskel.1]; exact h.1
    · rw [hskel.2.1]; exact h.2.1
    · rw [hskel.2.2]; exact h.2.2
    · rw [matchNids_eq_skel _ _ _ _ (Or.inl rfl), hskel.1,
        ← matchNids_eq_skel _ _ _ _ (Or.inl rfl)]
      exact hm'

theorem shapeNodes_prefix (fid : String) (ks ext : List (String × String)) :
    ∃ tail, shapeNodes fid (ks ++ ext) = shapeNodes fid ks ++ tail := by
  unfold shapeNodes
  rw [List.enum_append, List.map_append]
  exact ⟨_, by rw [List.cons_append]⟩

theorem elemFold_nodePhase (fid : String) (es : List ElementRec) :
    ∀ ks g, NodePhase fid ks g →
    ∃ ks', (∃ ext, ks' = ks ++ ext) ∧
      NodePhase fid ks'
        (es.foldl (fun acc e => (Neo4j.create_element_node acc e (some fid)).1) g) ∧
      ∀ e ∈ es,
        (matchNids (es.foldl (fun acc e => (Neo4j.create_element_node acc e (some fid)).1) g)
          ["Element", e.ifcClass] "globalId" (.str e.globalId)).isEmpty = false := by
  induction es with
  | nil =>
    intro ks g h
    exact ⟨ks, ⟨[], (List.append_nil ks).symm⟩, h, fun e he => nomatch he⟩
  | cons e0 rest ih =>
    intro ks g h
    rcases nodePhase_elem_step fid ks g h e0 with ⟨ks1, hks1, hphase1, hmatch1⟩
    rcases ih ks1 _ hphase1 with ⟨ks', ⟨ext, hext⟩, hphase', hmatch'⟩
    rw [List.foldl_cons]
    refine ⟨ks', ?_, hphase', ?_⟩
    · rcases hks1 with h1 | h1
      · exact ⟨ext, by rw [hext, h1]⟩
      · exact ⟨(e0.ifcClass, e0.globalId) :: ext, by rw [hext, h1, List.append_assoc]; rfl⟩
    · intro e he
      rcases List.mem_cons.mp he with he0 | her
      · -- persistence of the head match through the rest of the fold
        subst he0
        rcases shapeNodes_prefix fid ks1 ext with ⟨tail, htail⟩
        apply matchNids_nonempty_of_append
          (Neo4j.create_element_node g e (some fid)).1 _ tail
        · rw [hphase'.1, hext, htail, hphase1.1]
        · exact Or.inl rfl
        · exact hmatch1
      · exact hmatch' e her

theorem edgePresent_mono_skels (g g' : Graph) (ext : List ESkel)
    (h : g'.edgeSkels = g.edgeSkels ++ ext) (x y : Nat) (ty : String)
    (hp : edgePresent g x y ty = true) : edgePresent g' x y ty = true := by
  rw [edgePresent_eq_skel] at hp ⊢
  rw [h]
  unfold edgePresentSkel at hp ⊢
  rw [List.any_append, hp, Bool.true_or]

theorem pairFold_skels_of_present (g : Graph) (ty rid : String)
    (ps : List (String × String))
    (h : ∀ p ∈ ps, ∀ s ∈ matchNids g ["Element"] "globalId" (.str p.1),
      ∀ t ∈ matchNids g ["Element"] "globalId" (.str p.2),
        edgePresent g s t ty = true) :
    (pairFold g ty rid ps).1.edgeSkels = g.edgeSkels := by
  unfold pairFold
  suffices haux : ∀ acc : Graph × Nat, acc.1.nodes = g.nodes →
      acc.1.edgeSkels = g.edgeSkels →
      (ps.foldl (fun acc p =>
        let r := Neo4j.createEdgePair acc.1 p.1 p.2 ty rid
        (r.1, acc.2 + (if r.2 then 1 else 0))) acc).1.edgeSkels = g.edgeSkels by
    exact haux (g, 0) rfl rfl
  induction ps with
  | nil => intro acc _ he; exact he
  | cons p rest ih =>
    intro acc hn he
    rw [List.foldl_cons]
    have hstep : (Neo4j.createEdgePair acc.1 p.1 p.2 ty rid).1.edgeSkels =
        g.edgeSkels := by
      rw [createEdgePair_skels_of_present]
      · exact he
      · intro s hs t ht
        rw [matchNids_congr_nodes g acc.1 hn] at hs ht
        rw [edgePresent_eq_skel, he, ← edgePresent_eq_skel]
        exact h p (List.mem_cons_self p rest) s hs t ht
    refine ih (fun q hq s hs t ht => h q (List.mem_cons_of_mem p hq) s hs t ht) _ ?_ hstep
    rw [createEdgePair_nodes]
    exact hn

/-! Relationship-phase lemmas. -/

theorem rel_nodes (g : Graph) (r : RelRec) :
    (Neo4j.create_relationship g r).1.nodes = g.nodes := by
  cases r with
  | aggregates rid a bs =>
    show (Neo4j.createAggregatesRelationship g rid a bs).1.nodes = g.nodes
    rw [aggregates_eq_pairFold]
    split
    · rfl
    · exact pairFold_nodes g _ rid _
  | connects rid a b =>
    show (Neo4j.createConnectsRelationship g rid a b).1.nodes = g.nodes
    unfold Neo4j.createConnectsRelationship
    split
    · rfl
    · exact createEdgePair_nodes g a b _ rid
  | hasProperty rid as b => rfl
  | containedIn rid as b =>
    show (Neo4j.createSpatialRelationship g rid as b).1.nodes = g.nodes
    rw [spatial_eq_pairFold]
    split
    · rfl
    · exact pairFold_nodes g _ rid _
  | assignedTo rid as b =>
    show (Neo4j.createGroupRelationship g rid as b).1.nodes = g.nodes
    rw [group_eq_pairFold]
    split
    · rfl
    · exact pairFold_nodes g _ rid _

theorem rel_nextId (g : Graph) (r : RelRec) :
    (Neo4j.create_relationship g r).1.nextId = g.nextId := by
  cases r with
  | aggregates rid a bs =>
    show (Neo4j.createAggregatesRelationship g rid a bs).1.nextId = g.nextId
    rw [aggregates_eq_pairFold]
    split
    · rfl
    · exact pairFold_nextId g _ rid _
  | connects rid a b =>
    show (Neo4j.createConnectsRelationship g rid a b).1.nextId = g.nextId
    unfold Neo4j.createConnectsRelationship
    split
    · rfl
    · exact createEdgePair_nextId g a b _ rid
  | hasProperty rid as b => rfl
  | containedIn rid as b =>
    show (Neo4j.createSpatialRelationship g rid as b).1.nextId = g.nextId
    rw [spatial_eq_pairFold]
    split
    · rfl
    · exact pairFold_nextId g _ rid _
  | assignedTo rid as b =>
    show (Neo4j.createGroupRelationship g rid as b).1.nextId = g.nextId
    rw [group_eq_pairFold]
    split
    · rfl
    · exact pairFold_nextId g _ rid _

theorem rel_skels_append (g : Graph) (r : RelRec) :
    ∃ ext, (Neo4j.create_relationship g r).1.edgeSkels = g.edgeSkels ++ ext := by
  cases r with
  | aggregates rid a bs =>
    show ∃ ext, (Neo4j.createAggregatesRelationship g rid a bs).1.edgeSkels = _
    rw [aggregates_eq_pairFold]
    split
    · exact ⟨[], (List.append_nil _).symm⟩
    · exact pairFold_skels_append g _ rid _
  | connects rid a b =>
    show ∃ ext, (Neo4j.createConnectsRelationship g rid a b).1.edgeSkels = _
    unfold Neo4j.createConnectsRelationship
    split
    · exact ⟨[], (List.append_nil _).symm⟩
    · exact createEdgePair_skels_append g a b _ rid
  | hasProperty rid as b => exact ⟨[], (List.append_nil _).symm⟩
  | containedIn rid as b =>
    show ∃ ext, (Neo4j.createSpatialRelationship g rid as b).1.edgeSkels = _
    rw [spatial_eq_pairFold]
    split
    · exact ⟨[], (List.append_nil _).symm⟩
    · exact pairFold_skels_append g _ rid _
  | assignedTo rid as b =>
    show ∃ ext, (Neo4j.createGroupRelationship g rid as b).1.edgeSkels = _
    rw [group_eq_pairFold]
    split
    · exact ⟨[], (List.append_nil _).symm⟩
    · exact pairFold_skels_append g _ rid _

theorem rel_establishes (g : Graph) (r : RelRec) :
    relPairsPresent (Neo4j.create_relationship g r).1 r := by
  cases r with
  | aggregates rid a bs =>
    show relPairsPresent (Neo4j.createAggregatesRelationship g rid a bs).1 _
    rw [aggregates_eq_pairFold]
    intro hguard b hb s hs t ht
    rw [if_neg (by rw [hguard]; exact fun hcon => nomatch hcon)] at hs ht ⊢
    have hn := pairFold_nodes g "AGGREGATES" rid (bs.map (fun b => (a, b)))
    rw [matchNids_congr_nodes g _ hn] at hs ht
    exact pairFold_present g "AGGREGATES" rid _ a b
      (List.mem_map.mpr ⟨b, hb, rfl⟩) s t hs ht
  | connects rid a b =>
    show relPairsPresent (Neo4j.createConnectsRelationship g rid a b).1 _
    unfold Neo4j.createConnectsRelationship
    intro hguard s hs t ht
    rw [if_neg (by rw [hguard]; exact fun hcon => nomatch hcon)] at hs ht ⊢
    have hn := createEdgePair_nodes g a b "CONNECTS_TO" rid
    rw [matchNids_congr_nodes g _ hn] at hs ht
    exact createEdgePair_present g a b "CONNECTS_TO" rid s t hs ht
  | hasProperty rid as b => trivial
  | containedIn rid as b =>
    show relPairsPresent (Neo4j.createSpatialRelationship g rid as b).1 _
    rw [spatial_eq_pairFold]
    intro hguard a ha s hs t ht
    rw [if_neg (by rw [hguard]; exact fun hcon => nomatch hcon)] at hs ht ⊢
    have hn := pairFold_nodes g "CONTAINED_IN" rid (as.map (fun a => (a, b)))
    rw [matchNids_congr_nodes g _ hn] at hs ht
    exact pairFold_present g "CONTAINED_IN" rid _ a b
      (List.mem_map.mpr ⟨a, ha, rfl⟩) s t hs ht
  | assignedTo rid as b =>
    show relPairsPresent (Neo4j.createGroupRelationship g rid as b).1 _
    rw [group_eq_pairFold]
    intro hguard a ha s hs t ht
    rw [if_neg (by rw [hguard]; exact fun hcon => nomatch hcon)] at hs ht ⊢
    have hn := pairFold_nodes g "ASSIGNED_TO" rid (as.map (fun a => (a, b)))
    rw [matchNids_congr_nodes g _ hn] at hs ht
    exact pairFold_present g "ASSIGNED_TO" rid _ a b
      (List.mem_map.mpr ⟨a, ha, rfl⟩) s t hs ht

theorem matchNids_congr_skels (g g' : Graph) (h : g'.nodeSkels = g.nodeSkels)
    (L : List String) (v : Value) (k : String)
    (hk : k = "globalId" ∨ k = "fileId") :
    matchNids g' L k v = matchNids g L k v := by
  rw [matchNids_eq_skel _ _ _ _ hk, h, ← matchNids_eq_skel _ _ _ _ hk]

theorem relPairsPresent_transfer (g g' : Graph) (hn : g'.nodeSkels = g.nodeSkels)
    (he : ∃ ext, g'.edgeSkels = g.edgeSkels ++ ext) (r : RelRec)
    (h : relPairsPresent g r) : relPairsPresent g' r := by
  rcases he with ⟨ext, he⟩
  cases r with
  | aggregates rid a bs =>
    intro hguard b hb s hs t ht
    rw [matchNids_congr_skels g g' hn _ _ _ (Or.inl rfl)] at hs ht
    exact edgePresent_mono_skels g g' ext he s t _ (h hguard b hb s hs t ht)
  | connects rid a b =>
    intro hguard s hs t ht
    rw [matchNids_congr_skels g g' hn _ _ _ (Or.inl rfl)] at hs ht
    exact edgePresent_mono_skels g g' ext he s t _ (h hguard s hs t ht)
  | hasProperty rid as b => trivial
  | containedIn rid as b =>
    intro hguard a ha s hs t ht
    rw [matchNids_congr_skels g g' hn _ _ _ (Or.inl rfl)] at hs ht
    exact edgePresent_mono_skels g g' ext he s t _ (h hguard a ha s hs t ht)
  | assignedTo rid as b =>
    intro hguard a ha s hs t ht
    rw [matchNids_congr_skels g g' hn _ _ _ (Or.inl rfl)] at hs ht
    exact edgePresent_mono_skels g g' ext he s t _ (h hguard a ha s hs t ht)

theorem rel_preserves_skel (g : Graph) (r : RelRec) (h : relPairsPresent g r) :
    (Neo4j.create_relationship g r).1.nodeSkels = g.nodeSkels ∧
    (Neo4j.create_relationship g r).1.edgeSkels = g.edgeSkels ∧
    (Neo4j.create_relationship g r).1.nextId = g.nextId := by
  refine ⟨?_, ?_, rel_nextId g r⟩
  · unfold Graph.nodeSkels
    rw [rel_nodes]
  cases r with
  | aggregates rid a bs =>
    show (Neo4j.createAggregatesRelationship g rid a bs).1.edgeSkels = _
    rw [aggregates_eq_pairFold]
    by_cases hguard : (a = "" || bs.isEmpty) = true
    · rw [if_pos hguard]
    · rw [if_neg hguard]
      apply pairFold_skels_of_present
      intro p hp s hs t ht
      rcases List.mem_map.mp hp with ⟨b, hb, rfl⟩
      exact h (Bool.eq_false_iff.mpr hguard) b hb s hs t ht
  | connects rid a b =>
    show (Neo4j.createConnectsRelationship g rid a b).1.edgeSkels = _
    unfold Neo4j.createConnectsRelationship
    by_cases hguard : (a = "" || b = "") = true
    · rw [if_pos hguard]
    · rw [if_neg hguard]
      apply createEdgePair_skels_of_present
      intro s hs t ht
      exact h (Bool.eq_false_iff.mpr hguard) s hs t ht
  | hasProperty rid as b => rfl
  | containedIn rid as b =>
    show (Neo4j.createSpatialRelationship g rid as b).1.edgeSkels = _
    rw [spatial_eq_pairFold]
    by_cases hguard : (as.isEmpty || b = "") = true
    · rw [if_pos hguard]
    · rw [if_neg hguard]
      apply pairFold_skels_of_present
      intro p hp s hs t ht
      rcases List.mem_map.mp hp with ⟨a, ha, rfl⟩
      exact h (Bool.eq_false_iff.mpr hguard) a ha s hs t ht
  | assignedTo rid as b =>
    show (Neo4j.createGroupRelationship g rid as b).1.edgeSkels = _
    rw [group_eq_pairFold]
    by_cases hguard : (as.isEmpty || b = "") = true
    · rw [if_pos hguard]
    · rw [if_neg hguard]
      apply pairFold_skels_of_present
      intro p hp s hs t ht
      rcases List.mem_map.mp hp with ⟨a, ha, rfl⟩
      exact h (Bool.eq_false_iff.mpr hguard) a ha s hs t ht

theorem relFold_nodes (rs : List RelRec) : ∀ g : Graph,
    (rs.foldl (fun acc r => (Neo4j.create_relationship acc r).1) g).nodes = g.nodes := by
  induction rs with
  | nil => intro g; rfl
  | cons r rest ih =>
    intro g
    rw [List.foldl_cons, ih, rel_nodes]

theorem relFold_nextId (rs : List RelRec) : ∀ g : Graph,
    (rs.foldl (fun acc r => (Neo4j.create_relationship acc r).1) g).nextId = g.nextId := by
  induction rs with
  | nil => intro g; rfl
  | cons r rest ih =>
    intro g
    rw [List.foldl_cons, ih, rel_nextId]

theorem relFold_skels_append (rs : List RelRec) : ∀ g : Graph,
    ∃ ext, (rs.foldl (fun acc r => (Neo4j.create_relationship acc r).1) g).edgeSkels =
      g.edgeSkels ++ ext := by
  induction rs with
  | nil => intro g; exact ⟨[], (List.append_nil _).symm⟩
  | cons r rest ih =>
    intro g
    rw [List.foldl_cons]
    rcases ih ((Neo4j.create_relationship g r).1) with ⟨e2, h2⟩
    rcases rel_skels_append g r with ⟨e1, h1⟩
    exact ⟨e1 ++ e2, by rw [h2, h1, List.append_assoc]⟩

theorem relFold_establishes (rs : List RelRec) : ∀ g : Graph, ∀ r ∈ rs,
    relPairsPresent (rs.foldl (fun acc r => (Neo4j.create_relationship acc r).1) g) r := by
  induction rs with
  | nil => intro g r hr; cases hr
  | cons r0 rest ih =>
    intro g r hr
    rw [List.foldl_cons]
    rcases List.mem_cons.mp hr with h | h
    · subst h
      have hest := rel_establishes g r
      apply relPairsPresent_transfer _ _ _ _ _ hest
      · unfold Graph.nodeSkels
        rw [relFold_nodes]
      · exact relFold_skels_append rest _
    · exact ih _ r h

theorem relFold_preserves_skel (rs : List RelRec) : ∀ g : Graph,
    (∀ r ∈ rs, relPairsPresent g r) →
    (rs.foldl (fun acc r => (Neo4j.create_relationship acc r).1) g).nodeSkels =
      g.nodeSkels ∧
    (rs.foldl (fun acc r => (Neo4j.create_relationship acc r).1) g).edgeSkels =
      g.edgeSkels ∧
    (rs.foldl (fun acc r => (Neo4j.create_relationship acc r).1) g).nextId =
      g.nextId := by
  induction rs with
  | nil => intro g _; exact ⟨rfl, rfl, rfl⟩
  | cons r0 rest ih =>
    intro g h
    rw [List.foldl_cons]
    have hstep := rel_preserves_skel g r0 (h r0 (List.mem_cons_self r0 rest))
    have hrest : ∀ r ∈ rest, relPairsPresent (Neo4j.create_relationship g r0).1 r := by
      intro r hr
      apply relPairsPresent_transfer g _ hstep.1 ⟨[], by
        rw [hstep.2.1, List.append_nil]⟩
      exact h r (List.mem_cons_of_mem r0 hr)
    rcases ih _ hrest with ⟨h1, h2, h3⟩
    exact ⟨by rw [h1, hstep.1], by rw [h2, hstep.2.1], by rw [h3, hstep.2.2]⟩

theorem importFile_eq (g : Graph) (f : FileRec) (d : String) (es : List ElementRec)
    (rs : List RelRec) :
    importFile g f d es rs =
      if es.isEmpty then (Neo4j.create_file_node g f d).1
      else rs.foldl (fun acc r => (Neo4j.create_relationship acc r).1)
        (es.foldl (fun acc e => (Neo4j.create_element_node acc e (some f.fileId)).1)
          (Neo4j.create_file_node g f d).1) := by
  unfold importFile convert_file
  simp only [neoDB]
  have h := create_file_node_snd g f d
  rcases hp : Neo4j.create_file_node g f d with ⟨g1, fo⟩
  rw [hp] at h
  simp only at h
  subst h
  simp only
  split
  · rfl
  · rfl

theorem edgePresent_congr_skels (g g' : Graph) (h : g'.edgeSkels = g.edgeSkels)
    (s t : Nat) (ty : String) : edgePresent g' s t ty = edgePresent g s t ty := by
  rw [edgePresent_eq_skel, h, ← edgePresent_eq_skel]

theorem elemFold_preserves_skel (fid : String) (es : List ElementRec) : ∀ g : Graph,
    (∀ e ∈ es, (matchNids g ["Element", e.ifcClass] "globalId"
      (.str e.globalId)).isEmpty = false) →
    (∀ c gid : String, ∀ s ∈ matchNids g ["Element", c] "globalId" (.str gid),
      ∀ t ∈ matchNids g ["IFCFile"] "fileId" (.str fid),
        edgePresent g s t "BELONGS_TO_FILE" = true) →
    (es.foldl (fun acc e => (Neo4j.create_element_node acc e (some fid)).1) g).nodeSkels
      = g.nodeSkels ∧
    (es.foldl (fun acc e => (Neo4j.create_element_node acc e (some fid)).1) g).edgeSkels
      = g.edgeSkels ∧
    (es.foldl (fun acc e => (Neo4j.create_element_node acc e (some fid)).1) g).nextId
      = g.nextId := by
  induction es with
  | nil => intro g _ _; exact ⟨rfl, rfl, rfl⟩
  | cons e0 rest ih =>
    intro g hmatch hbel
    rw [List.foldl_cons]
    have hstep := neo_elem_skel_matched g e0 fid
      (hmatch e0 (List.mem_cons_self e0 rest))
      (hbel e0.ifcClass e0.globalId)
    have hmatch' : ∀ e ∈ rest,
        (matchNids (Neo4j.create_element_node g e0 (some fid)).1
          ["Element", e.ifcClass] "globalId" (.str e.globalId)).isEmpty = false := by
      intro e he
      rw [matchNids_congr_skels g _ hstep.1 _ _ _ (Or.inl rfl)]
      exact hmatch e (List.mem_cons_of_mem e0 he)
    have hbel' : ∀ c gid : String,
        ∀ s ∈ matchNids (Neo4j.create_element_node g e0 (some fid)).1
          ["Element", c] "globalId" (.str gid),
        ∀ t ∈ matchNids (Neo4j.create_element_node g e0 (some fid)).1
          ["IFCFile"] "fileId" (.str fid),
          edgePresent (Neo4j.create_element_node g e0 (some fid)).1 s t
            "BELONGS_TO_FILE" = true := by
      intro c gid s hs t ht
      rw [matchNids_congr_skels g _ hstep.1 _ _ _ (Or.inl rfl)] at hs
      rw [matchNids_congr_skels g _ hstep.1 _ _ _ (Or.inr rfl)] at ht
      rw [edgePresent_congr_skels g _ hstep.2.1]
      exact hbel c gid s hs t ht
    rcases ih _ hmatch' hbel' with ⟨h1, h2, h3⟩
    exact ⟨by rw [h1, hstep.1], by rw [h2, hstep.2.1], by rw [h3, hstep.2.2]⟩

theorem nodes_length_eq_skels (g : Graph) : g.nodes.length = g.nodeSkels.length := by
  unfold Graph.nodeSkels
  rw [List.length_map]

theorem edges_length_eq_skels (g : Graph) : g.edges.length = g.edgeSkels.length := by
  unfold Graph.edgeSkels
  rw [List.length_map]

theorem nodeSkels_congr_nodes (g g' : Graph) (h : g'.nodes = g.nodes) :
    g'.nodeSkels = g.nodeSkels := by
  unfold Graph.nodeSkels
  rw [h]

/-- C1: Idempotence of import.  For every source file (same records, same
derived file identifier, arbitrary import timestamps), importing the same
unmodified file twice into a fresh store yields the same node and edge
counts as importing it once: every write is a MERGE keyed by globalId or
by the derived FILE_stem_mtime identifier, so the second run only updates
what the first created. -/
theorem c1_import_idempotent (f : FileRec) (d1 d2 : String) (es : List ElementRec)
    (rs : List RelRec) :
    (importFile (importFile emptyGraph f d1 es rs) f d2 es rs).nodes.length =
      (importFile emptyGraph f d1 es rs).nodes.length ∧
    (importFile (importFile emptyGraph f d1 es rs) f d2 es rs).edges.length =
      (importFile emptyGraph f d1 es rs).edges.length := by
  have hG1 := importFile_eq emptyGraph f d1 es rs
  have hG2 := importFile_eq (importFile emptyGraph f d1 es rs) f d2 es rs
  by_cases hes : es.isEmpty = true
  · -- no elements: both runs stop after the file-node upsert
    rw [if_pos hes] at hG1 hG2
    have hphase : NodePhase f.fileId [] (importFile emptyGraph f d1 es rs) := by
      rw [hG1]
      exact nodePhase_file_step f d1
    have hm : (matchNids (importFile emptyGraph f d1 es rs) ["IFCFile"] "fileId"
        (.str f.fileId)).isEmpty = false := by
      rw [nodePhase_file_match _ _ _ hphase]
      rfl
    have hstep := neo_file_skel_matched (importFile emptyGraph f d1 es rs) f d2 hm
    constructor
    · rw [hG2, nodes_length_eq_skels, nodes_length_eq_skels, hstep.1]
    · rw [hG2, hstep.2.1]
  · -- elements present: file node, element nodes, then relationships
    rw [if_neg hes] at hG1 hG2
    -- phase facts about the first run
    have hfs := nodePhase_file_step f d1
    rcases elemFold_nodePhase f.fileId es []
        (Neo4j.create_file_node emptyGraph f d1).1 hfs with
      ⟨ks, _, hphase, hmatchNP⟩
    set FS := (Neo4j.create_file_node emptyGraph f d1).1 with hFSdef
    set NP := es.foldl (fun acc e => (Neo4j.create_element_node acc e (some f.fileId)).1)
      FS with hNPdef
    set G1 := importFile emptyGraph f d1 es rs with hG1def
    have hG1nodes : G1.nodes = NP.nodes := by
      rw [hG1]
      exact relFold_nodes rs NP
    have hG1skels : G1.nodeSkels = NP.nodeSkels := nodeSkels_congr_nodes NP G1 hG1nodes
    have hG1ext : ∃ ext, G1.edgeSkels = NP.edgeSkels ++ ext := by
      rw [hG1]
      exact relFold_skels_append rs NP
    -- the facts run 2 needs, stated on G1
    have hfileG1 : matchNids G1 ["IFCFile"] "fileId" (.str f.fileId) = [0] := by
      rw [matchNids_congr_nodes NP G1 hG1nodes]
      exact nodePhase_file_match _ _ _ hphase
    have hmatchG1 : ∀ e ∈ es, (matchNids G1 ["Element", e.ifcClass] "globalId"
        (.str e.globalId)).isEmpty = false := by
      intro e he
      rw [matchNids_congr_nodes NP G1 hG1nodes]
      exact hmatchNP e he
    have hbelG1 : ∀ c gid : String, ∀ s ∈ matchNids G1 ["Element", c] "globalId"
        (.str gid), ∀ t ∈ matchNids G1 ["IFCFile"] "fileId" (.str f.fileId),
        edgePresent G1 s t "BELONGS_TO_FILE" = true := by
      intro c gid s hs t ht
      rw [matchNids_congr_nodes NP G1 hG1nodes] at hs ht
      rcases hG1ext with ⟨ext, hext⟩
      exact edgePresent_mono_skels NP G1 ext hext s t _
        (nodePhase_belongs f.fileId ks NP hphase c gid s hs t ht)
    have hrelG1 : ∀ r ∈ rs, relPairsPresent G1 r := by
      rw [hG1]
      exact relFold_establishes rs NP
    -- run 2: file upsert matches, element writes match, edge writes match
    have hmfile : (matchNids G1 ["IFCFile"] "fileId" (.str f.fileId)).isEmpty
        = false := by
      rw [hfileG1]; rfl
    have hFS2 := neo_file_skel_matched G1 f d2 hmfile
    set FS2 := (Neo4j.create_file_node G1 f d2).1 with hFS2def
    have hmatchFS2 : ∀ e ∈ es, (matchNids FS2 ["Element", e.ifcClass] "globalId"
        (.str e.globalId)).isEmpty = false := by
      intro e he
      rw [matchNids_congr_skels G1 FS2 hFS2.1 _ _ _ (Or.inl rfl)]
      exact hmatchG1 e he
    have hbelFS2 : ∀ c gid : String, ∀ s ∈ matchNids FS2 ["Element", c] "globalId"
        (.str gid), ∀ t ∈ matchNids FS2 ["IFCFile"] "fileId" (.str f.fileId),
        edgePresent FS2 s t "BELONGS_TO_FILE" = true := by
      intro c gid s hs t ht
      rw [matchNids_congr_skels G1 FS2 hFS2.1 _ _ _ (Or.inl rfl)] at hs
      rw [matchNids_congr_skels G1 FS2 hFS2.1 _ _ _ (Or.inr rfl)] at ht
      rw [edgePresent_congr_edges G1 FS2 hFS2.2.1]
      exact hbelG1 c gid s hs t ht
    have helem := elemFold_preserves_skel f.fileId es FS2 hmatchFS2 hbelFS2
    set NP2 := es.foldl (fun acc e =>
      (Neo4j.create_element_node acc e (some f.fileId)).1) FS2 with hNP2def
    have hFS2edgeSkels : FS2.edgeSkels = G1.edgeSkels := by
      unfold Graph.edgeSkels
      rw [hFS2.2.1]
    have hrelNP2 : ∀ r ∈ rs, relPairsPresent NP2 r := by
      intro r hr
      apply relPairsPresent_transfer G1 NP2 ?_ ⟨[], ?_⟩ r (hrelG1 r hr)
      · rw [helem.1, hFS2.1]
      · rw [helem.2.1, hFS2edgeSkels, List.append_nil]
    have hrel := relFold_preserves_skel rs NP2 hrelNP2
    constructor
    · rw [hG2, nodes_length_eq_skels, nodes_length_eq_skels]
      rw [show (rs.foldl (fun acc r => (Neo4j.create_relationship acc r).1)
        NP2).nodeSkels = NP2.nodeSkels from hrel.1, helem.1, hFS2.1]
    · rw [hG2, edges_length_eq_skels, edges_length_eq_skels]
      rw [show (rs.foldl (fun acc r => (Neo4j.create_relationship acc r).1)
        NP2).edgeSkels = NP2.edgeSkels from hrel.2.1, helem.2.1, hFS2edgeSkels]

/-! Further property-lookup lemmas and backend-equality helpers. -/

theorem setProps_eq_of_head (p : Props) (k : String) (v : Value)
    (rest : List (String × Value)) (h : p k = some v) :
    setProps p ((k, v) :: rest) = setProps p rest := by
  rw [setProps_cons]
  show setProps (setProp p k v) rest = setProps p rest
  rw [setProp_same p k v h]

theorem mergeNodeSet_congr_P (g : Graph) (L : List String) (k : String) (v : Value)
    (P P' : List (String × Value))
    (hc : setProps (setProp emptyProps k v) P = setProps (setProp emptyProps k v) P')
    (hm : ∀ p : Props, p k = some v → setProps p P = setProps p P') :
    mergeNodeSet g L k v P = mergeNodeSet g L k v P' := by
  by_cases hmE : (g.nodes.filter (fun n => nodeMatch n L k v)).isEmpty = true
  · simp only [mergeNodeSet, hmE, if_true]
    rw [hc]
  · have hmE' : (g.nodes.filter (fun n => nodeMatch n L k v)).isEmpty = false := by
      cases h : (g.nodes.filter (fun n => nodeMatch n L k v)).isEmpty
      · rfl
      · exact absurd h hmE
    simp only [mergeNodeSet, hmE', Bool.false_eq_true, if_false]
    have hmap : g.nodes.map (fun n =>
        if nodeMatch n L k v then { n with props := setProps n.props P } else n) =
      g.nodes.map (fun n =>
        if nodeMatch n L k v then { n with props := setProps n.props P' } else n) := by
      apply List.map_congr_left
      intro n _
      by_cases hn : nodeMatch n L k v
      · rw [if_pos hn, if_pos hn, hm n.props (nodeMatch_props_key n L k v hn)]
      · rw [if_neg hn, if_neg hn]
    rw [hmap]

theorem falkor_file_eq_neo (g : Graph) (f : FileRec) (d : String) :
    FalkorDB.create_file_node g f d = Neo4j.create_file_node g f d := by
  unfold FalkorDB.create_file_node Neo4j.create_file_node
  rw [mergeNodeSet_congr_P g ["IFCFile"] "fileId" (.str f.fileId)
    (FalkorDB.fileProps f d) (Neo4j.fileProps f d) ?_ ?_]
  · rw [fileProps_neo_eq_cons]
    exact (setProps_eq_of_head _ _ _ _ (by simp [setProp])).symm
  · intro p hp
    rw [fileProps_neo_eq_cons]
    exact (setProps_eq_of_head _ _ _ _ hp).symm

theorem falkor_elem_eq_neo (g : Graph) (e : ElementRec) (fid : Option String) :
    FalkorDB.create_element_node g e fid = Neo4j.create_element_node g e fid := by
  unfold FalkorDB.create_element_node Neo4j.create_element_node
  rw [mergeNodeSet_congr_P g ["Element", e.ifcClass] "globalId" (.str e.globalId)
    (FalkorDB.elemProps e fid) (Neo4j.elemProps e fid) ?_ ?_]
  · rw [elemProps_neo_eq_cons]
    exact (setProps_eq_of_head _ _ _ _ (by simp [setProp])).symm
  · intro p hp
    rw [elemProps_neo_eq_cons]
    exact (setProps_eq_of_head _ _ _ _ hp).symm

theorem setProps_elemProps_neo_name (p : Props) (e : ElementRec)
    (fid : Option String) :
    setProps p (Neo4j.elemProps e fid) "name" = some (.str e.name) := by
  cases fid <;> cases h : e.propsJson <;>
    simp [setProps, Neo4j.elemProps, setProp, h]

theorem setProps_elemProps_neo_description (p : Props) (e : ElementRec)
    (fid : Option String) :
    setProps p (Neo4j.elemProps e fid) "description" = some (.str e.description) := by
  cases fid <;> cases h : e.propsJson <;>
    simp [setProps, Neo4j.elemProps, setProp, h]

theorem setProps_elemProps_neo_objectType (p : Props) (e : ElementRec)
    (fid : Option String) :
    setProps p (Neo4j.elemProps e fid) "objectType" = some (.str e.objectType) := by
  cases fid <;> cases h : e.propsJson <;>
    simp [setProps, Neo4j.elemProps, setProp, h]

theorem setProps_elemProps_neo_tag (p : Props) (e : ElementRec)
    (fid : Option String) :
    setProps p (Neo4j.elemProps e fid) "tag" = some (.str e.tag) := by
  cases fid <;> cases h : e.propsJson <;>
    simp [setProps, Neo4j.elemProps, setProp, h]

theorem mem_matchNids (g : Graph) (L : List String) (k : String) (v : Value)
    (t : Nat) (ht : t ∈ matchNids g L k v) :
    ∃ n ∈ g.nodes, n.nid = t ∧ nodeMatch n L k v = true := by
  unfold matchNids at ht
  rcases List.mem_map.mp ht with ⟨n, hn, rfl⟩
  have hf := List.mem_filter.mp hn
  exact ⟨n, hf.1, rfl, hf.2⟩

theorem nodeMatch_labels (n : GNode) (L : List String) (k : String) (v : Value)
    (h : nodeMatch n L k v = true) : ∀ l ∈ L, l ∈ n.labels := by
  intro l hl
  unfold nodeMatch at h
  have h1 := (Bool.and_eq_true _ _).mp h
  have h2 := (List.all_eq_true.mp h1.1) l hl
  exact List.elem_iff.mp h2

theorem convert_file_snd {σ : Type} (db : GDB σ) (s : σ) (f : FileRec)
    (parsed : Option (List ElementRec × List RelRec)) :
    (convert_file db s f parsed).2 =
      ((db.create_file_node s f).2.isSome &&
        match parsed with
        | none => false
        | some (es, _) => !es.isEmpty) := by
  unfold convert_file
  rcases hfn : db.create_file_node s f with ⟨s1, fo⟩
  cases fo with
  | none => cases parsed with
    | none => rfl
    | some p => rcases p with ⟨es, rs⟩; rfl
  | some fid => cases parsed with
    | none => rfl
    | some p =>
      rcases p with ⟨es, rs⟩
      show (if es.isEmpty = true then ((s1 : σ), false) else
        (rs.foldl (fun acc r => (db.create_relationship acc r).1)
          (es.foldl (fun acc e => (db.create_element_node acc e (some fid)).1) s1),
          true)).2 =
        ((s1, some fid).2.isSome && (!es.isEmpty))
      cases hes : es.isEmpty <;> rfl

/-- C10: File success is independent of write outcomes.  convert_file
returns True exactly when the file-node upsert yields an id, parsing
succeeds and at least one element record was extracted; and the flag is
unchanged under any replacement of the element/relationship writers, so a
file whose every element and relationship write fails is still reported
as a successful conversion. -/
theorem c10_success_iff_and_write_independent {σ : Type} (db : GDB σ) (s : σ)
    (f : FileRec) (parsed : Option (List ElementRec × List RelRec)) :
    ((convert_file db s f parsed).2 = true ↔
      ((db.create_file_node s f).2.isSome ∧
        ∃ es rs, parsed = some (es, rs) ∧ es ≠ [])) ∧
    (∀ db' : GDB σ, db'.create_file_node = db.create_file_node →
      (convert_file db' s f parsed).2 = (convert_file db s f parsed).2) := by
  constructor
  · rw [convert_file_snd, Bool.and_eq_true]
    cases parsed with
    | none =>
      constructor
      · rintro ⟨-, h⟩; exact nomatch h
      · rintro ⟨-, es, rs, h, -⟩; exact nomatch h
    | some p =>
      rcases p with ⟨es, rs⟩
      constructor
      · rintro ⟨h1, h2⟩
        refine ⟨h1, es, rs, rfl, ?_⟩
        intro hcon
        rw [hcon] at h2
        exact nomatch h2
      · rintro ⟨h1, es', rs', heq, hne⟩
        refine ⟨h1, ?_⟩
        have hs : es = es' := by
          injection heq with h
          injection h with ha hb
        subst hs
        show (!es.isEmpty) = true
        cases hval : es.isEmpty with
        | true => exact absurd (List.isEmpty_iff.mp hval) hne
        | false => rfl
  · intro db' hdb
    rw [convert_file_snd, convert_file_snd, hdb]

/-- Witness for C10: with the all-writes-fail backend, a parsed file with
one element is still reported converted, and replacing the failing
writers by succeeding ones does not change the reported flag. -/
theorem c10_witness :
    (convert_file failingDB () wFile (some ([wElem], []))).2 = true ∧
    (convert_file succeedingDB () wFile (some ([wElem], []))).2 =
      (convert_file failingDB () wFile (some ([wElem], []))).2 := by
  constructor
  · exact (c10_success_iff_and_write_independent failingDB () wFile
      (some ([wElem], []))).1.mpr
      ⟨rfl, [wElem], [], rfl, List.cons_ne_nil wElem []⟩
  · exact (c10_success_iff_and_write_independent failingDB () wFile
      (some ([wElem], []))).2 succeedingDB rfl

theorem file_node_exists (g : Graph) (f : FileRec) (d : String) :
    ∃ n ∈ (Neo4j.create_file_node g f d).1.nodes,
      "IFCFile" ∈ n.labels ∧ n.props "fileId" = some (.str f.fileId) := by
  rw [create_file_node_fst]
  by_cases hm : (g.nodes.filter
      (fun n => nodeMatch n ["IFCFile"] "fileId" (.str f.fileId))).isEmpty = true
  · simp only [mergeNodeSet, hm, if_true]
    apply Exists.intro (GNode.mk g.nextId ["IFCFile"]
      (setProps (setProp emptyProps "fileId" (Value.str f.fileId))
        (Neo4j.fileProps f d)))
    refine ⟨List.mem_append_right _ (List.mem_singleton.mpr rfl), ?_, ?_⟩
    · exact List.mem_cons_self "IFCFile" []
    · show setProps (setProp emptyProps "fileId" (Value.str f.fileId))
        (Neo4j.fileProps f d) "fileId" = some (Value.str f.fileId)
      exact setProps_fileProps_neo_fileId _ f d
  · have hm' : (g.nodes.filter
        (fun n => nodeMatch n ["IFCFile"] "fileId" (.str f.fileId))).isEmpty = false := by
      cases hv : (g.nodes.filter
        (fun n => nodeMatch n ["IFCFile"] "fileId" (.str f.fileId))).isEmpty
      · rfl
      · exact absurd hv hm
    simp only [mergeNodeSet, hm', Bool.false_eq_true, if_false]
    have hne : g.nodes.filter
        (fun n => nodeMatch n ["IFCFile"] "fileId" (.str f.fileId)) ≠ [] := by
      intro hcon
      rw [hcon] at hm'
      exact nomatch hm'
    rcases List.exists_mem_of_ne_nil _ hne with ⟨n0, hn0⟩
    have hmem := List.mem_filter.mp hn0
    refine ⟨{ n0 with props := setProps n0.props (Neo4j.fileProps f d) }, ?_, ?_, ?_⟩
    · apply List.mem_map.mpr
      exact ⟨n0, hmem.1, by rw [if_pos hmem.2]⟩
    · exact nodeMatch_labels n0 _ _ _ hmem.2 "IFCFile" (List.mem_cons_self _ _)
    · show setProps n0.props (Neo4j.fileProps f d) "fileId" = some (.str f.fileId)
      exact setProps_fileProps_neo_fileId _ f d

/-- C9: Failed conversion is not atomic.  convert_file writes the IFCFile
metadata node before parsing, so a file whose parse fails (parsed = none)
or that yields zero elements is reported failed yet the store still holds
the created-or-updated IFCFile node for it. -/
theorem c9_failed_conversion_not_atomic (g : Graph) (f : FileRec) (d : String)
    (rs : List RelRec) :
    ((convert_file (neoDB d) g f none).2 = false ∧
      (convert_file (neoDB d) g f none).1 = (Neo4j.create_file_node g f d).1) ∧
    ((convert_file (neoDB d) g f (some ([], rs))).2 = false ∧
      (convert_file (neoDB d) g f (some ([], rs))).1 =
        (Neo4j.create_file_node g f d).1) ∧
    ∃ n ∈ (Neo4j.create_file_node g f d).1.nodes,
      "IFCFile" ∈ n.labels ∧ n.props "fileId" = some (.str f.fileId) := by
  have h := create_file_node_snd g f d
  refine ⟨⟨?_, ?_⟩, ⟨?_, ?_⟩, file_node_exists g f d⟩ <;>
  · unfold convert_file
    simp only [neoDB]
    rcases hp : Neo4j.create_file_node g f d with ⟨g1, fo⟩
    rw [hp] at h
    simp only at h
    subst h
    rfl

/-- C4: Per-file failure isolation.  Every globbed file gets exactly one
entry in the results mapping carrying its own outcome; a failing file
(including one whose conversion raised, modeled as outcome none) is
recorded as False; the entries of all other files do not depend on that
file; and convert_file itself reports False on a file-node failure, a
parse failure, or zero extracted elements without affecting the loop. -/
theorem c4_per_file_isolation (files : List String) (outcome : String → Option Bool) :
    (convert_directory files outcome).length = files.length ∧
    (∀ f ∈ files, (f, (outcome f).getD false) ∈ convert_directory files outcome) ∧
    (∀ f ∈ files, (outcome f = none ∨ outcome f = some false) →
      (f, false) ∈ convert_directory files outcome) ∧
    (∀ (outcome' : String → Option Bool) (f : String),
      (∀ x, x ≠ f → outcome' x = outcome x) →
      (convert_directory files outcome').filter (fun p => p.1 ≠ f) =
        (convert_directory files outcome).filter (fun p => p.1 ≠ f)) ∧
    (∀ (σ : Type) (db : GDB σ) (st : σ) (fr : FileRec) (rs : List RelRec),
      (convert_file db st fr none).2 = false ∧
      (convert_file db st fr (some ([], rs))).2 = false ∧
      ((db.create_file_node st fr).2 = none →
        ∀ parsed, (convert_file db st fr parsed).2 = false)) := by
  refine ⟨?_, ?_, ?_, ?_, ?_⟩
  · exact List.length_map files _
  · intro f hf
    exact List.mem_map.mpr ⟨f, hf, rfl⟩
  · intro f hf h
    have hout : (outcome f).getD false = false := by
      rcases h with h | h <;> rw [h] <;> rfl
    have hmem : (f, (outcome f).getD false) ∈ convert_directory files outcome :=
      List.mem_map.mpr ⟨f, hf, rfl⟩
    rw [hout] at hmem
    exact hmem
  · intro outcome' f hagree
    unfold convert_directory
    induction files with
    | nil => rfl
    | cons x rest ih =>
      simp only [List.map_cons, List.filter_cons]
      by_cases hx : x = f
      · subst hx
        simp only [ne_eq, not_true_eq_false, decide_False]
        exact ih
      · simp only [ne_eq, hx, not_false_eq_true, decide_True]
        rw [hagree x hx, ih]
  · intro σ db st fr rs
    refine ⟨?_, ?_, ?_⟩
    · rw [convert_file_snd]
      exact Bool.and_false _
    · rw [convert_file_snd]
      exact Bool.and_false _
    · intro hnone parsed
      rw [convert_file_snd, hnone]
      rfl

/-- Witness for C4: concrete two-file batch where the first file fails:
it is recorded False, the second file still succeeds. -/
theorem c4_witness :
    (convert_directory ["a.ifc", "b.ifc"]
      (fun x => if x = "a.ifc" then some false else some true)).length = 2 ∧
    ("a.ifc", false) ∈ convert_directory ["a.ifc", "b.ifc"]
      (fun x => if x = "a.ifc" then some false else some true) ∧
    ("b.ifc", true) ∈ convert_directory ["a.ifc", "b.ifc"]
      (fun x => if x = "a.ifc" then some false else some true) := by
  have h := c4_per_file_isolation ["a.ifc", "b.ifc"]
    (fun x => if x = "a.ifc" then some false else some true)
  refine ⟨h.1, ?_, ?_⟩
  · exact h.2.2.1 "a.ifc" (by decide) (Or.inr (by decide))
  · have := h.2.1 "b.ifc" (by decide)
    simpa using this

theorem successCount_convert (files : List String) (o : String → Option Bool) :
    MainCLI.successCount (convert_directory files o) =
      (files.filter (fun f => (o f).getD false)).length := by
  unfold MainCLI.successCount convert_directory
  induction files with
  | nil => rfl
  | cons x rest ih =>
    simp only [List.map_cons, List.filter_cons]
    cases hv : (o x).getD false with
    | true =>
      simp only [hv]
      show (MainCLI.successCount (convert_directory rest o)) + 1 = _
      rw [show MainCLI.successCount (convert_directory rest o) =
        ((rest.map (fun f => (f, (o f).getD false))).filter (fun p => p.2)).length
        from rfl, ih]
      rfl
    | false => exact ih

theorem convert_directory_length (files : List String) (o : String → Option Bool) :
    (convert_directory files o).length = files.length :=
  List.length_map files _

theorem main_run_code (e : MainCLI.Env) (h1 : e.interrupted = false)
    (h2 : e.envVarsOk = true) (h3 : e.inputDirExists = true)
    (h4 : e.ifcFiles ≠ []) (h5 : e.connectOk = true) :
    MainCLI.main e =
      (if 0 < MainCLI.successCount (convert_directory e.ifcFiles e.fileOutcome)
        then { exitCode := 0, warnedNoFiles := false }
        else { exitCode := 1, warnedNoFiles := false }) := by
  have hfe : e.ifcFiles.isEmpty = false := by
    cases hv : e.ifcFiles.isEmpty
    · rfl
    · exact absurd (List.isEmpty_iff.mp hv) h4
  unfold MainCLI.main
  rw [h1, h2, h3, h5, hfe]
  simp only [Bool.not_true, Bool.false_eq_true, if_false, Bool.not_false]
  set results := convert_directory e.ifcFiles e.fileOutcome with hres
  have hlenpos : 0 < results.length := by
    rw [hres, convert_directory_length]
    exact List.length_pos.mpr h4
  by_cases h0 : 0 < MainCLI.successCount results
  · rw [if_pos h0]
    by_cases hc1 : (MainCLI.successCount results = results.length ∧ 0 < results.length)
    · rw [if_pos (by
        rw [Bool.and_eq_true, decide_eq_true_eq, decide_eq_true_eq]
        exact hc1)]
    · rw [if_neg (by
        rw [Bool.and_eq_true, decide_eq_true_eq, decide_eq_true_eq]
        exact hc1)]
      rw [if_pos (by rw [decide_eq_true_eq]; exact h0)]
  · rw [if_neg h0]
    have hz : MainCLI.successCount results = 0 := Nat.eq_zero_of_not_pos h0
    rw [if_neg (by
      rw [Bool.and_eq_true, decide_eq_true_eq, decide_eq_true_eq]
      rintro ⟨ha, hb⟩
      rw [hz] at ha
      omega)]
    rw [if_neg (by rw [decide_eq_true_eq]; exact h0)]

/-- C3: Exit-code mapping of the batch driver.  130 on interrupt; 1 on
missing configuration, missing input directory, or failed connection; 0
with a logged warning when no IFC files match; 0 when all or some files
succeeded; 1 when every attempted file failed. -/
theorem c3_exit_code_mapping (e : MainCLI.Env) :
    (e.interrupted = true →
      MainCLI.main e = { exitCode := 130, warnedNoFiles := false }) ∧
    (e.interrupted = false → e.envVarsOk = false →
      MainCLI.main e = { exitCode := 1, warnedNoFiles := false }) ∧
    (e.interrupted = false → e.envVarsOk = true → e.inputDirExists = false →
      MainCLI.main e = { exitCode := 1, warnedNoFiles := false }) ∧
    (e.interrupted = false → e.envVarsOk = true → e.inputDirExists = true →
      e.ifcFiles = [] →
      MainCLI.main e = { exitCode := 0, warnedNoFiles := true }) ∧
    (e.interrupted = false → e.envVarsOk = true → e.inputDirExists = true →
      e.ifcFiles ≠ [] → e.connectOk = false →
      MainCLI.main e = { exitCode := 1, warnedNoFiles := false }) ∧
    (e.interrupted = false → e.envVarsOk = true → e.inputDirExists = true →
      e.ifcFiles ≠ [] → e.connectOk = true →
      (∃ f ∈ e.ifcFiles, (e.fileOutcome f).getD false = true) →
      MainCLI.main e = { exitCode := 0, warnedNoFiles := false }) ∧
    (e.interrupted = false → e.envVarsOk = true → e.inputDirExists = true →
      e.ifcFiles ≠ [] → e.connectOk = true →
      (∀ f ∈ e.ifcFiles, (e.fileOutcome f).getD false = false) →
      MainCLI.main e = { exitCode := 1, warnedNoFiles := false }) := by
  refine ⟨?_, ?_, ?_, ?_, ?_, ?_, ?_⟩
  · intro h1
    unfold MainCLI.main
    rw [h1]
    rfl
  · intro h1 h2
    unfold MainCLI.main
    rw [h1, h2]
    rfl
  · intro h1 h2 h3
    unfold MainCLI.main
    rw [h1, h2, h3]
    rfl
  · intro h1 h2 h3 h4
    have hfe : e.ifcFiles.isEmpty = true := by rw [h4]; rfl
    unfold MainCLI.main
    rw [h1, h2, h3, hfe]
    rfl
  · intro h1 h2 h3 h4 h5
    have hfe : e.ifcFiles.isEmpty = false := by
      cases hv : e.ifcFiles.isEmpty
      · rfl
      · exact absurd (List.isEmpty_iff.mp hv) h4
    unfold MainCLI.main
    rw [h1, h2, h3, hfe, h5]
    rfl
  · intro h1 h2 h3 h4 h5 hex
    rw [main_run_code e h1 h2 h3 h4 h5]
    rcases hex with ⟨f, hf, hsucc⟩
    rw [if_pos ?_]
    rw [successCount_convert]
    apply List.length_pos.mpr
    apply List.ne_nil_of_mem (a := f)
    exact List.mem_filter.mpr ⟨hf, by rw [hsucc]⟩
  · intro h1 h2 h3 h4 h5 hall
    rw [main_run_code e h1 h2 h3 h4 h5]
    rw [if_neg ?_]
    rw [successCount_convert]
    intro hpos
    rcases List.exists_mem_of_ne_nil _ (List.length_pos.mp hpos) with ⟨f, hf⟩
    have hmf := List.mem_filter.mp hf
    have := hall f hmf.1
    rw [this] at hmf
    exact nomatch hmf.2

/-- Witness for C3: concrete environments exercising the interrupt,
empty-glob, partial-success and total-failure exit paths. -/
theorem c3_witness :
    MainCLI.main wEnvInterrupted = { exitCode := 130, warnedNoFiles := false } ∧
    MainCLI.main wEnvNoFiles = { exitCode := 0, warnedNoFiles := true } ∧
    MainCLI.main wEnvPartial = { exitCode := 0, warnedNoFiles := false } ∧
    MainCLI.main wEnvAllFail = { exitCode := 1, warnedNoFiles := false } := by
  refine ⟨?_, ?_, ?_, ?_⟩
  · exact (c3_exit_code_mapping wEnvInterrupted).1 rfl
  · exact (c3_exit_code_mapping wEnvNoFiles).2.2.2.1 rfl rfl rfl rfl
  · exact (c3_exit_code_mapping wEnvPartial).2.2.2.2.2.1 rfl rfl rfl
      (by decide) rfl ⟨"a.ifc", by decide, by decide⟩
  · exact (c3_exit_code_mapping wEnvAllFail).2.2.2.2.2.2 rfl rfl rfl
      (by decide) rfl (fun f _ => rfl)

theorem runAttempts_failure_error (q : String)
    (a : Nat → Except String (List String)) (r : Nat → Bool) (mr : Nat) :
    ∀ l : List Nat, (AgentTool.runAttempts q a r mr l).success = false →
      (AgentTool.runAttempts q a r mr l).error ≠ none := by
  intro l
  induction l with
  | nil => intro _ hcon; exact nomatch hcon
  | cons i rest ih =>
    intro hs
    simp only [AgentTool.runAttempts] at hs ⊢
    revert hs
    cases ha : a i with
    | ok rows => intro hs; exact nomatch hs
    | error msg =>
      intro hs
      replace hs : (if (AgentTool.isConnError msg && decide (i < mr - 1) && r i)
          = true then AgentTool.runAttempts q a r mr rest
          else { success := false, query := q, error := some msg,
                 results := [] }).success = false := hs
      show (if (AgentTool.isConnError msg && decide (i < mr - 1) && r i) = true
          then AgentTool.runAttempts q a r mr rest
          else { success := false, query := q, error := some msg,
                 results := [] }).error ≠ none
      by_cases hc : (AgentTool.isConnError msg && decide (i < mr - 1) && r i) = true
      · rw [if_pos hc] at hs ⊢
        exact ih hs
      · rw [if_neg hc]
        intro hcon
        exact nomatch hcon

theorem runAttempts_congr (q : String) (mr : Nat)
    (a a' : Nat → Except String (List String)) (r r' : Nat → Bool) :
    ∀ l : List Nat, (∀ i ∈ l, a i = a' i) → (∀ i ∈ l, r i = r' i) →
      AgentTool.runAttempts q a r mr l = AgentTool.runAttempts q a' r' mr l := by
  intro l
  induction l with
  | nil => intro _ _; rfl
  | cons i rest ih =>
    intro ha hr
    simp only [AgentTool.runAttempts]
    rw [ha i (List.mem_cons_self i rest)]
    cases ha' : a' i with
    | ok rows => rfl
    | error msg =>
      show (if (AgentTool.isConnError msg && decide (i < mr - 1) && r i) = true
          then AgentTool.runAttempts q a r mr rest
          else { success := false, query := q, error := some msg, results := [] }) =
        (if (AgentTool.isConnError msg && decide (i < mr - 1) && r' i) = true
          then AgentTool.runAttempts q a' r' mr rest
          else { success := false, query := q, error := some msg, results := [] })
      rw [hr i (List.mem_cons_self i rest)]
      by_cases hc : (AgentTool.isConnError msg && decide (i < mr - 1) && r' i) = true
      · rw [if_pos hc, if_pos hc]
        exact ih (fun j hj => ha j (List.mem_cons_of_mem i hj))
          (fun j hj => hr j (List.mem_cons_of_mem i hj))
      · rw [if_neg hc, if_neg hc]

theorem execute_query_eq_two (q : String) (a : Nat → Except String (List String))
    (r : Nat → Bool) :
    AgentTool.execute_query q true a r 2 = AgentTool.runAttempts q a r 2 [0, 1] := by
  unfold AgentTool.execute_query
  rw [show List.range 2 = [0, 1] from by decide]
  rfl

/-- C8: Graph-writer error totality and bounded reconnect.  The wrapped
relationship write maps a raised error to a False result; execute_query
always returns a structured result whose error field is set on failure;
the retry loop consults only the first max_retries attempt outcomes (the
fixed bound); a non-connection-keyword error is surfaced immediately
without retry; and a connection-keyword error with a successful reconnect
leads to exactly one further attempt. -/
theorem c8_error_totality_and_bounded_retry :
    (∀ msg : String, AgentTool.create_relationship_wrapped (.error msg) = false) ∧
    (∀ b : Bool, AgentTool.create_relationship_wrapped (.ok b) = b) ∧
    (∀ (q : String) (c : Bool) (a : Nat → Except String (List String))
        (r : Nat → Bool) (mr : Nat),
      (AgentTool.execute_query q c a r mr).success = false →
      (AgentTool.execute_query q c a r mr).error ≠ none) ∧
    (∀ (q : String) (a a' : Nat → Except String (List String))
        (r r' : Nat → Bool) (mr : Nat),
      (∀ i < mr, a i = a' i) → (∀ i < mr, r i = r' i) →
      AgentTool.execute_query q true a r mr =
        AgentTool.execute_query q true a' r' mr) ∧
    (∀ (q msg : String) (a : Nat → Except String (List String)) (r : Nat → Bool),
      a 0 = .error msg → AgentTool.isConnError msg = false →
      AgentTool.execute_query q true a r 2 =
        { success := false, query := q, error := some msg, results := [] }) ∧
    (∀ (q msg : String) (a : Nat → Except String (List String)) (r : Nat → Bool),
      a 0 = .error msg → AgentTool.isConnError msg = true → r 0 = true →
      AgentTool.execute_query q true a r 2 =
        AgentTool.runAttempts q a r 2 [1]) := by
  refine ⟨fun msg => rfl, fun b => rfl, ?_, ?_, ?_, ?_⟩
  · intro q c a r mr
    cases c with
    | false => intro _ hcon; exact nomatch hcon
    | true =>
      show (AgentTool.runAttempts q a r mr (List.range mr)).success = false → _
      exact runAttempts_failure_error q a r mr (List.range mr)
  · intro q a a' r r' mr ha hr
    show AgentTool.runAttempts q a r mr (List.range mr) = _
    exact runAttempts_congr q mr a a' r r' (List.range mr)
      (fun i hi => ha i (List.mem_range.mp hi))
      (fun i hi => hr i (List.mem_range.mp hi))
  · intro q msg a r ha hconn
    rw [execute_query_eq_two]
    have haux : AgentTool.runAttempts q a r 2 [0, 1] =
        if (AgentTool.isConnError msg && decide ((0 : Nat) < 2 - 1) && r 0) = true
          then AgentTool.runAttempts q a r 2 [1]
          else { success := false, query := q, error := some msg, results := [] } := by
      simp only [AgentTool.runAttempts]
      rw [ha]
    rw [haux, hconn]
    rfl
  · intro q msg a r ha hconn hrec
    rw [execute_query_eq_two]
    have haux : AgentTool.runAttempts q a r 2 [0, 1] =
        if (AgentTool.isConnError msg && decide ((0 : Nat) < 2 - 1) && r 0) = true
          then AgentTool.runAttempts q a r 2 [1]
          else { success := false, query := q, error := some msg, results := [] } := by
      simp only [AgentTool.runAttempts]
      rw [ha]
    rw [haux, hconn, hrec]
    rfl

/-- Witness for C8: a wrapped failure returns False; a syntax error is
surfaced without retry; a connection-reset error with working reconnect
retries exactly once; a not-connected result carries its error text. -/
theorem c8_witness :
    AgentTool.create_relationship_wrapped (.error "boom") = false ∧
    AgentTool.execute_query "Q" true (fun _ => Except.error "syntax error")
      (fun _ => true) 2 =
      { success := false, query := "Q", error := some "syntax error",
        results := [] } ∧
    AgentTool.execute_query "Q" true
      (fun i => if i = 0 then Except.error "Connection reset" else Except.ok ["row"])
      (fun _ => true) 2 =
      AgentTool.runAttempts "Q"
        (fun i => if i = 0 then Except.error "Connection reset" else Except.ok ["row"])
        (fun _ => true) 2 [1] ∧
    (AgentTool.execute_query "Q" false (fun _ => Except.ok []) (fun _ => true) 2).error
      ≠ none := by
  refine ⟨?_, ?_, ?_, ?_⟩
  · exact c8_error_totality_and_bounded_retry.1 "boom"
  · exact c8_error_totality_and_bounded_retry.2.2.2.2.1 "Q" "syntax error"
      (fun _ => Except.error "syntax error") (fun _ => true) rfl (by decide)
  · exact c8_error_totality_and_bounded_retry.2.2.2.2.2 "Q" "Connection reset"
      (fun i => if i = 0 then Except.error "Connection reset" else Except.ok ["row"])
      (fun _ => true) rfl (by decide) rfl
  · exact c8_error_totality_and_bounded_retry.2.2.1 "Q" false
      (fun _ => Except.ok []) (fun _ => true) 2 rfl

theorem pairs_filter_map (g : Graph) (a : String) (bs : List String) :
    ((bs.map (fun b => (a, b))).filter (fun p => pairOk g p.1 p.2)).length =
      (bs.filter (fun b => pairOk g a b)).length := by
  rw [List.filter_map, List.length_map]
  rfl

theorem aggregates_snd_closed (g : Graph) (rid a : String) (bs : List String)
    (hguard : (a = "" || bs.isEmpty) = false) :
    (Neo4j.createAggregatesRelationship g rid a bs).2 =
      decide (0 < (bs.filter (fun b => pairOk g a b)).length) := by
  rw [aggregates_eq_pairFold, if_neg (by rw [hguard]; exact fun h => nomatch h)]
  show decide (0 < (pairFold g "AGGREGATES" rid (bs.map fun b => (a, b))).2) = _
  rw [pairFold_count, pairs_filter_map]

theorem pairs_filter_map_left (g : Graph) (as : List String) (b : String) :
    ((as.map (fun x => (x, b))).filter (fun p => pairOk g p.1 p.2)).length =
      (as.filter (fun x => pairOk g x b)).length := by
  rw [List.filter_map, List.length_map]
  rfl

theorem spatial_snd_closed (g : Graph) (rid : String) (as : List String)
    (b : String) (hguard : (as.isEmpty || b = "") = false) :
    (Neo4j.createSpatialRelationship g rid as b).2 =
      decide (0 < (as.filter (fun x => pairOk g x b)).length) := by
  rw [spatial_eq_pairFold, if_neg (by rw [hguard]; exact fun h => nomatch h)]
  show decide (0 < (pairFold g "CONTAINED_IN" rid (as.map fun x => (x, b))).2) = _
  rw [pairFold_count, pairs_filter_map_left]

theorem group_snd_closed (g : Graph) (rid : String) (as : List String)
    (b : String) (hguard : (as.isEmpty || b = "") = false) :
    (Neo4j.createGroupRelationship g rid as b).2 =
      decide (0 < (as.filter (fun x => pairOk g x b)).length) := by
  rw [group_eq_pairFold, if_neg (by rw [hguard]; exact fun h => nomatch h)]
  show decide (0 < (pairFold g "ASSIGNED_TO" rid (as.map fun x => (x, b))).2) = _
  rw [pairFold_count, pairs_filter_map_left]

/-- C5: Multi-endpoint relationship write policy, for all three kinds.
Aggregation (parent a, children bs): with a non-falsy parent and a
non-empty child list, the write succeeds exactly when at least one
endpoint pair resolved; the per-pair success count is at most N and
equals N when every pair resolves; every resolving pair has its
AGGREGATES edge written regardless of failing siblings; the FalkorDB
loop is the same function as the Neo4j loop.  Spatial containment
(contained as, structure b) and group assignment (assigned as, group b):
with a non-empty element list and a non-falsy target, the same policy
holds — success iff at least one of the pairs resolved, the count of
resolving pairs is at most N and equals N when every endpoint
pre-exists, every resolving pair has its CONTAINED_IN respectively
ASSIGNED_TO edge written independently of failing siblings, and each
FalkorDB loop equals its Neo4j counterpart. -/
theorem c5_multi_endpoint_policy (g : Graph) (rid a b : String)
    (bs as : List String) (ha : a ≠ "") (hbs : bs ≠ [])
    (has : as ≠ []) (hb : b ≠ "") :
    ((Neo4j.createAggregatesRelationship g rid a bs).2 = true ↔
      0 < (bs.filter (fun x => pairOk g a x)).length) ∧
    (bs.filter (fun x => pairOk g a x)).length ≤ bs.length ∧
    ((∀ x ∈ bs, pairOk g a x = true) →
      (bs.filter (fun x => pairOk g a x)).length = bs.length) ∧
    (∀ x ∈ bs, ∀ s ∈ matchNids g ["Element"] "globalId" (.str a),
      ∀ t ∈ matchNids g ["Element"] "globalId" (.str x),
        edgePresent (Neo4j.createAggregatesRelationship g rid a bs).1 s t
          "AGGREGATES" = true) ∧
    FalkorDB.createAggregatesRelationship g rid a bs =
      Neo4j.createAggregatesRelationship g rid a bs ∧
    ((Neo4j.createSpatialRelationship g rid as b).2 = true ↔
      0 < (as.filter (fun x => pairOk g x b)).length) ∧
    (as.filter (fun x => pairOk g x b)).length ≤ as.length ∧
    ((∀ x ∈ as, pairOk g x b = true) →
      (as.filter (fun x => pairOk g x b)).length = as.length) ∧
    (∀ x ∈ as, ∀ s ∈ matchNids g ["Element"] "globalId" (.str x),
      ∀ t ∈ matchNids g ["Element"] "globalId" (.str b),
        edgePresent (Neo4j.createSpatialRelationship g rid as b).1 s t
          "CONTAINED_IN" = true) ∧
    FalkorDB.createSpatialRelationship g rid as b =
      Neo4j.createSpatialRelationship g rid as b ∧
    ((Neo4j.createGroupRelationship g rid as b).2 = true ↔
      0 < (as.filter (fun x => pairOk g x b)).length) ∧
    (∀ x ∈ as, ∀ s ∈ matchNids g ["Element"] "globalId" (.str x),
      ∀ t ∈ matchNids g ["Element"] "globalId" (.str b),
        edgePresent (Neo4j.createGroupRelationship g rid as b).1 s t
          "ASSIGNED_TO" = true) ∧
    FalkorDB.createGroupRelationship g rid as b =
      Neo4j.createGroupRelationship g rid as b := by
  have hbse : bs.isEmpty = false := by
    cases hv : bs.isEmpty
    · rfl
    · exact absurd (List.isEmpty_iff.mp hv) hbs
  have hase : as.isEmpty = false := by
    cases hv : as.isEmpty
    · rfl
    · exact absurd (List.isEmpty_iff.mp hv) has
  have hguard1 : (a = "" || bs.isEmpty) = false := by
    show (decide (a = "") || bs.isEmpty) = false
    rw [decide_eq_false ha, hbse]
    rfl
  have hguard2 : (as.isEmpty || b = "") = false := by
    show (as.isEmpty || decide (b = "")) = false
    rw [decide_eq_false hb, hase]
    rfl
  refine ⟨?_, List.length_filter_le _ bs, ?_, ?_, rfl,
    ?_, List.length_filter_le _ as, ?_, ?_, rfl, ?_, ?_, rfl⟩
  · rw [aggregates_snd_closed g rid a bs hguard1]
    rw [decide_eq_true_eq]
  · intro h
    rw [List.filter_eq_self.mpr h]
  · intro x hx s hs t ht
    rw [aggregates_eq_pairFold, if_neg (by rw [hguard1]; exact fun h => nomatch h)]
    exact pairFold_present g "AGGREGATES" rid _ a x
      (List.mem_map.mpr ⟨x, hx, rfl⟩) s t hs ht
  · rw [spatial_snd_closed g rid as b hguard2]
    rw [decide_eq_true_eq]
  · intro h
    rw [List.filter_eq_self.mpr h]
  · intro x hx s hs t ht
    rw [spatial_eq_pairFold, if_neg (by rw [hguard2]; exact fun h => nomatch h)]
    exact pairFold_present g "CONTAINED_IN" rid _ x b
      (List.mem_map.mpr ⟨x, hx, rfl⟩) s t hs ht
  · rw [group_snd_closed g rid as b hguard2]
    rw [decide_eq_true_eq]
  · intro x hx s hs t ht
    rw [group_eq_pairFold, if_neg (by rw [hguard2]; exact fun h => nomatch h)]
    exact pairFold_present g "ASSIGNED_TO" rid _ x b
      (List.mem_map.mpr ⟨x, hx, rfl⟩) s t hs ht

/-- Witness for C5: parent A with children P (present) and B (absent)
aggregates with success and one resolving pair of two; elements A
(present) and B (absent) contained in / assigned to structure P likewise
succeed with one resolving pair of two. -/
theorem c5_witness :
    (Neo4j.createAggregatesRelationship wGraphAP "r" "A" ["P", "B"]).2 = true ∧
    (["P", "B"].filter (fun x => pairOk wGraphAP "A" x)).length = 1 ∧
    (["P", "B"].filter (fun x => pairOk wGraphAP "A" x)).length ≤ 2 ∧
    (Neo4j.createSpatialRelationship wGraphAP "r" ["A", "B"] "P").2 = true ∧
    (["A", "B"].filter (fun x => pairOk wGraphAP x "P")).length ≤ 2 ∧
    (Neo4j.createGroupRelationship wGraphAP "r" ["A", "B"] "P").2 = true := by
  have h := c5_multi_endpoint_policy wGraphAP "r" "A" "P" ["P", "B"] ["A", "B"]
    (by decide) (by decide) (by decide) (by decide)
  exact ⟨h.1.mpr (by decide), by decide, h.2.1,
    h.2.2.2.2.2.1.mpr (by decide), h.2.2.2.2.2.2.1,
    h.2.2.2.2.2.2.2.2.2.2.1.mpr (by decide)⟩

theorem mergeEdgesAll_ts_nil (g : Graph) (ss : List Nat) (ty : String)
    (P : List (String × Value)) : mergeEdgesAll g ss [] ty P = g := by
  unfold mergeEdgesAll
  induction ss with
  | nil => rfl
  | cons s rest ih => rw [List.foldl_cons]; exact ih

theorem neo_connects_missing (g : Graph) (rid a b : String) (ha : a ≠ "")
    (hb : b ≠ "") (hmiss : matchNids g ["Element"] "globalId" (.str b) = []) :
    Neo4j.createConnectsRelationship g rid a b = (g, false) := by
  have hguard : (a = "" || b = "") = false := by
    show (decide (a = "") || decide (b = "")) = false
    rw [decide_eq_false ha, decide_eq_false hb]
    rfl
  unfold Neo4j.createConnectsRelationship
  rw [if_neg (by rw [hguard]; exact fun h => nomatch h)]
  unfold Neo4j.createEdgePair
  rw [hmiss]
  show (mergeEdgesAll g (matchNids g ["Element"] "globalId" (.str a)) []
      "CONNECTS_TO" [("globalId", Value.str rid)],
    (!(matchNids g ["Element"] "globalId" (.str a)).isEmpty && false)) = (g, false)
  rw [mergeEdgesAll_ts_nil, Bool.and_false]

theorem falkor_connects_missing (g : Graph) (rid a b : String) (ha : a ≠ "")
    (hb : b ≠ "") (hmiss : matchNids g ["Element"] "globalId" (.str b) = []) :
    (FalkorDB.createConnectsRelationship g rid a b).1 = g ∧
    (FalkorDB.createConnectsRelationship g rid a b).2 = true := by
  have hguard : (a = "" || b = "") = false := by
    show (decide (a = "") || decide (b = "")) = false
    rw [decide_eq_false ha, decide_eq_false hb]
    rfl
  unfold FalkorDB.createConnectsRelationship
  rw [if_neg (by rw [hguard]; exact fun h => nomatch h)]
  refine ⟨?_, rfl⟩
  show (Neo4j.createEdgePair g a b "CONNECTS_TO" rid).1 = g
  unfold Neo4j.createEdgePair
  rw [hmiss]
  show mergeEdgesAll g (matchNids g ["Element"] "globalId" (.str a)) []
    "CONNECTS_TO" [("globalId", Value.str rid)] = g
  rw [mergeEdgesAll_ts_nil]

/-- Counterexample for C6: in the FalkorDB backend, a CONNECTS_TO record
whose target global identifier B has no matching Element node creates no
edge, yet the write reports success, because the method checks
result.result_set is not None and the client result set is a list. -/
theorem c6_counterexample :
    (FalkorDB.create_relationship wGraphA (.connects "r" "A" "B")).2 = true ∧
    (FalkorDB.create_relationship wGraphA (.connects "r" "A" "B")).1.edges.length
      = 0 ∧
    matchNids wGraphA ["Element"] "globalId" (.str "B") = [] := by
  refine ⟨by decide, by decide, by decide⟩

/-- C6 (amended): an endpoint pair referencing a global identifier with
no matching Element node creates no edge in either backend and is counted
as a failed write by the Neo4j backend and by every per-pair loop, without
affecting sibling pairs; FalkorDB's one-to-one CONNECTS_TO write, however,
reports success even though it created no edge. -/
theorem c6_missing_endpoint_amended :
    (∀ (g : Graph) (rid a b : String), a ≠ "" → b ≠ "" →
      matchNids g ["Element"] "globalId" (.str b) = [] →
      Neo4j.createConnectsRelationship g rid a b = (g, false)) ∧
    (∀ (g : Graph) (a b : String),
      (matchNids g ["Element"] "globalId" (.str b)).isEmpty = true →
      pairOk g a b = false) ∧
    (∀ (g : Graph) (rid a : String) (bs : List String),
      (a = "" || bs.isEmpty) = false →
      (Neo4j.createAggregatesRelationship g rid a bs).2 =
        decide (0 < (bs.filter (fun b => pairOk g a b)).length)) ∧
    (∀ (g : Graph) (rid a : String) (bs : List String),
      (a = "" || bs.isEmpty) = false →
      ∀ b ∈ bs, ∀ s ∈ matchNids g ["Element"] "globalId" (.str a),
        ∀ t ∈ matchNids g ["Element"] "globalId" (.str b),
          edgePresent (Neo4j.createAggregatesRelationship g rid a bs).1 s t
            "AGGREGATES" = true) ∧
    (∀ (g : Graph) (rid a b : String), a ≠ "" → b ≠ "" →
      matchNids g ["Element"] "globalId" (.str b) = [] →
      (FalkorDB.createConnectsRelationship g rid a b).1 = g ∧
      (FalkorDB.createConnectsRelationship g rid a b).2 = true) := by
  refine ⟨neo_connects_missing, ?_, aggregates_snd_closed, ?_, falkor_connects_missing⟩
  · intro g a b hmiss
    unfold pairOk
    rw [hmiss, Bool.not_true, Bool.and_false]
  · intro g rid a bs hguard b hb s hs t ht
    rw [aggregates_eq_pairFold, if_neg (by rw [hguard]; exact fun h => nomatch h)]
    exact pairFold_present g "AGGREGATES" rid _ a b
      (List.mem_map.mpr ⟨b, hb, rfl⟩) s t hs ht

/-- Witness for C6 (amended): at the concrete one-node store, the Neo4j
connects write fails and leaves the graph unchanged while the FalkorDB
write reports success on the same input. -/
theorem c6_witness :
    Neo4j.createConnectsRelationship wGraphA "r" "A" "B" = (wGraphA, false) ∧
    (FalkorDB.createConnectsRelationship wGraphA "r" "A" "B").1 = wGraphA ∧
    (FalkorDB.createConnectsRelationship wGraphA "r" "A" "B").2 = true ∧
    pairOk wGraphA "A" "B" = false := by
  refine ⟨?_, ?_, ?_, ?_⟩
  · exact c6_missing_endpoint_amended.1 wGraphA "r" "A" "B" (by decide) (by decide)
      (by decide)
  · exact (c6_missing_endpoint_amended.2.2.2.2 wGraphA "r" "A" "B" (by decide)
      (by decide) (by decide)).1
  · exact (c6_missing_endpoint_amended.2.2.2.2 wGraphA "r" "A" "B" (by decide)
      (by decide) (by decide)).2
  · exact c6_missing_endpoint_amended.2.1 wGraphA "A" "B" (by decide)

theorem elem_merge_node (g : Graph) (e : ElementRec) (fid : Option String) :
    ∃ n ∈ (mergeNodeSet g ["Element", e.ifcClass] "globalId" (.str e.globalId)
      (Neo4j.elemProps e fid)).1.nodes,
      n.nid ∈ (mergeNodeSet g ["Element", e.ifcClass] "globalId" (.str e.globalId)
        (Neo4j.elemProps e fid)).2 ∧
      "Element" ∈ n.labels ∧ e.ifcClass ∈ n.labels ∧
      n.props "globalId" = some (.str e.globalId) ∧
      n.props "name" = some (.str e.name) ∧
      n.props "description" = some (.str e.description) ∧
      n.props "objectType" = some (.str e.objectType) ∧
      n.props "tag" = some (.str e.tag) := by
  by_cases hm : (g.nodes.filter (fun n => nodeMatch n ["Element", e.ifcClass]
      "globalId" (.str e.globalId))).isEmpty = true
  · simp only [mergeNodeSet, hm, if_true]
    apply Exists.intro (GNode.mk g.nextId ["Element", e.ifcClass]
      (setProps (setProp emptyProps "globalId" (Value.str e.globalId))
        (Neo4j.elemProps e fid)))
    refine ⟨List.mem_append_right _ (List.mem_singleton.mpr rfl),
      List.mem_singleton.mpr rfl, List.mem_cons_self _ _,
      List.mem_cons_of_mem _ (List.mem_cons_self _ _), ?_, ?_, ?_, ?_, ?_⟩
    · exact setProps_elemProps_neo_globalId _ e fid
    · exact setProps_elemProps_neo_name _ e fid
    · exact setProps_elemProps_neo_description _ e fid
    · exact setProps_elemProps_neo_objectType _ e fid
    · exact setProps_elemProps_neo_tag _ e fid
  · have hm' : (g.nodes.filter (fun n => nodeMatch n ["Element", e.ifcClass]
        "globalId" (.str e.globalId))).isEmpty = false := by
      cases hv : (g.nodes.filter (fun n => nodeMatch n ["Element", e.ifcClass]
        "globalId" (.str e.globalId))).isEmpty
      · rfl
      · exact absurd hv hm
    simp only [mergeNodeSet, hm', Bool.false_eq_true, if_false]
    have hne : g.nodes.filter (fun n => nodeMatch n ["Element", e.ifcClass]
        "globalId" (.str e.globalId)) ≠ [] := by
      intro hcon
      rw [hcon] at hm'
      exact nomatch hm'
    rcases List.exists_mem_of_ne_nil _ hne with ⟨n0, hn0⟩
    have hmem := List.mem_filter.mp hn0
    apply Exists.intro { n0 with props := setProps n0.props (Neo4j.elemProps e fid) }
    refine ⟨?_, ?_, ?_, ?_, ?_, ?_, ?_, ?_, ?_⟩
    · exact List.mem_map.mpr ⟨n0, hmem.1, by rw [if_pos hmem.2]⟩
    · exact List.mem_map.mpr ⟨n0, hn0, rfl⟩
    · exact nodeMatch_labels n0 _ _ _ hmem.2 "Element" (List.mem_cons_self _ _)
    · exact nodeMatch_labels n0 _ _ _ hmem.2 e.ifcClass
        (List.mem_cons_of_mem _ (List.mem_cons_self _ _))
    · exact setProps_elemProps_neo_globalId _ e fid
    · exact setProps_elemProps_neo_name _ e fid
    · exact setProps_elemProps_neo_description _ e fid
    · exact setProps_elemProps_neo_objectType _ e fid
    · exact setProps_elemProps_neo_tag _ e fid

/-- C7: Entity write postcondition.  After a successful
create_element_node with a file identifier, the store holds a node
tagged with both the generic Element label and the specific class label,
carrying globalId, name, description, objectType and tag from the
record, and a BELONGS_TO_FILE edge from that node to the matching
IFCFile node. -/
theorem c7_entity_write_postcondition (g : Graph) (e : ElementRec) (fid : String)
    (h : (Neo4j.create_element_node g e (some fid)).2 = true) :
    ∃ n ∈ (Neo4j.create_element_node g e (some fid)).1.nodes,
      "Element" ∈ n.labels ∧ e.ifcClass ∈ n.labels ∧
      n.props "globalId" = some (.str e.globalId) ∧
      n.props "name" = some (.str e.name) ∧
      n.props "description" = some (.str e.description) ∧
      n.props "objectType" = some (.str e.objectType) ∧
      n.props "tag" = some (.str e.tag) ∧
      ∃ fn ∈ (Neo4j.create_element_node g e (some fid)).1.nodes,
        "IFCFile" ∈ fn.labels ∧ fn.props "fileId" = some (.str fid) ∧
        ∃ ed ∈ (Neo4j.create_element_node g e (some fid)).1.edges,
          ed.src = n.nid ∧ ed.dst = fn.nid ∧ ed.typ = "BELONGS_TO_FILE" := by
  replace h : (!(mergeNodeSet g ["Element", e.ifcClass] "globalId" (.str e.globalId)
      (Neo4j.elemProps e (some fid))).2.isEmpty &&
      !(matchNids (mergeNodeSet g ["Element", e.ifcClass] "globalId"
        (.str e.globalId) (Neo4j.elemProps e (some fid))).1
        ["IFCFile"] "fileId" (.str fid)).isEmpty) = true := h
  have hfn : (matchNids (mergeNodeSet g ["Element", e.ifcClass] "globalId"
      (.str e.globalId) (Neo4j.elemProps e (some fid))).1
      ["IFCFile"] "fileId" (.str fid)) ≠ [] := by
    intro hcon
    rw [hcon] at h
    exact nomatch ((Bool.and_eq_true _ _).mp h).2
  rcases List.exists_mem_of_ne_nil _ hfn with ⟨t, ht⟩
  rcases mem_matchNids _ _ _ _ t ht with ⟨fn, hfnmem, hfnnid, hfnmatch⟩
  rcases elem_merge_node g e (some fid) with
    ⟨n, hnmem, hnnid, hlab1, hlab2, hp1, hp2, hp3, hp4, hp5⟩
  have hpres := mergeEdgesAll_present
    (mergeNodeSet g ["Element", e.ifcClass] "globalId" (.str e.globalId)
      (Neo4j.elemProps e (some fid))).1
    (mergeNodeSet g ["Element", e.ifcClass] "globalId" (.str e.globalId)
      (Neo4j.elemProps e (some fid))).2
    (matchNids (mergeNodeSet g ["Element", e.ifcClass] "globalId" (.str e.globalId)
      (Neo4j.elemProps e (some fid))).1 ["IFCFile"] "fileId" (.str fid))
    "BELONGS_TO_FILE" [] n.nid t hnnid ht
  have hnodes : (Neo4j.create_element_node g e (some fid)).1.nodes =
      (mergeNodeSet g ["Element", e.ifcClass] "globalId" (.str e.globalId)
        (Neo4j.elemProps e (some fid))).1.nodes := mergeEdgesAll_nodes _ _ _ _ _
  refine ⟨n, ?_, hlab1, hlab2, hp1, hp2, hp3, hp4, hp5, fn, ?_, ?_, ?_, ?_⟩
  · rw [hnodes]; exact hnmem
  · rw [hnodes]; exact hfnmem
  · exact nodeMatch_labels fn _ _ _ hfnmatch "IFCFile" (List.mem_cons_self _ _)
  · exact nodeMatch_props_key fn _ _ _ hfnmatch
  · have hpres2 : edgePresent (Neo4j.create_element_node g e (some fid)).1
        n.nid t "BELONGS_TO_FILE" = true := hpres
    unfold edgePresent at hpres2
    rcases List.any_eq_true.mp hpres2 with ⟨ed, hed, hedm⟩
    unfold edgeMatch at hedm
    have h1 := (Bool.and_eq_true _ _).mp hedm
    have h2 := (Bool.and_eq_true _ _).mp h1.1
    exact ⟨ed, hed, eq_of_beq h2.1, by rw [eq_of_beq h2.2, hfnnid],
      eq_of_beq h1.2⟩

/-- Witness for C7: the element write into the store holding only the
file node succeeds and the theorem applies to it. -/
theorem c7_witness :
    (Neo4j.create_element_node wGraphFile wElem (some wFile.fileId)).2 = true ∧
    ∃ n ∈ (Neo4j.create_element_node wGraphFile wElem (some wFile.fileId)).1.nodes,
      "Element" ∈ n.labels ∧ wElem.ifcClass ∈ n.labels ∧
      n.props "globalId" = some (.str wElem.globalId) ∧
      n.props "name" = some (.str wElem.name) ∧
      n.props "description" = some (.str wElem.description) ∧
      n.props "objectType" = some (.str wElem.objectType) ∧
      n.props "tag" = some (.str wElem.tag) ∧
      ∃ fn ∈ (Neo4j.create_element_node wGraphFile wElem
          (some wFile.fileId)).1.nodes,
        "IFCFile" ∈ fn.labels ∧ fn.props "fileId" = some (.str wFile.fileId) ∧
        ∃ ed ∈ (Neo4j.create_element_node wGraphFile wElem
            (some wFile.fileId)).1.edges,
          ed.src = n.nid ∧ ed.dst = fn.nid ∧ ed.typ = "BELONGS_TO_FILE" := by
  have hs : (Neo4j.create_element_node wGraphFile wElem (some wFile.fileId)).2
      = true := by decide
  exact ⟨hs, c7_entity_write_postcondition wGraphFile wElem wFile.fileId hs⟩

/-- C2 counterexample: on a store holding elements A and P, a
property-definition record is a pure no-op in the Neo4j backend but
materializes a HAS_PROPERTY edge in the FalkorDB backend, and a
connection record with a missing endpoint reports failure in the Neo4j
backend but success in the FalkorDB backend — the two backends do not
implement an identical data contract. -/
theorem c2_counterexample :
    (Neo4j.create_relationship wGraphAP
      (.hasProperty "r" ["A"] "P")).1.edges.length = 0 ∧
    (FalkorDB.create_relationship wGraphAP
      (.hasProperty "r" ["A"] "P")).1.edges.length = 1 ∧
    (Neo4j.create_relationship wGraphAP (.connects "r" "A" "B")).2 = false ∧
    (FalkorDB.create_relationship wGraphAP (.connects "r" "A" "B")).2 = true := by
  decide

/-- C2 amended: the backends agree on file nodes, element nodes and the
three multi-endpoint relationship kinds, and produce the same graph for
connection records; they diverge on property-definition records (Neo4j
writes nothing and reports success, FalkorDB creates one HAS_PROPERTY
edge per resolvable referencing element) and on the reported success of
a connection record whose target endpoint is absent (Neo4j false,
FalkorDB true). -/
theorem c2_backend_contract_amended (g : Graph) (f : FileRec) (d : String)
    (e : ElementRec) (fid : Option String) (rid a b c : String)
    (as bs : List String) :
    FalkorDB.create_file_node g f d = Neo4j.create_file_node g f d ∧
    FalkorDB.create_element_node g e fid = Neo4j.create_element_node g e fid ∧
    FalkorDB.create_relationship g (.aggregates rid a bs) =
      Neo4j.create_relationship g (.aggregates rid a bs) ∧
    FalkorDB.create_relationship g (.containedIn rid as b) =
      Neo4j.create_relationship g (.containedIn rid as b) ∧
    FalkorDB.create_relationship g (.assignedTo rid as b) =
      Neo4j.create_relationship g (.assignedTo rid as b) ∧
    (FalkorDB.create_relationship g (.connects rid a b)).1 =
      (Neo4j.create_relationship g (.connects rid a b)).1 ∧
    Neo4j.create_relationship g (.hasProperty rid as c) = (g, true) ∧
    (as.isEmpty = false → c ≠ "" →
      ∀ p ∈ as, ∀ s ∈ matchNids g ["Element"] "globalId" (.str p),
        ∀ t ∈ matchNids g ["Element"] "globalId" (.str c),
        edgePresent (FalkorDB.create_relationship g
          (.hasProperty rid as c)).1 s t "HAS_PROPERTY" = true) ∧
    (a ≠ "" → b ≠ "" → matchNids g ["Element"] "globalId" (.str b) = [] →
      (Neo4j.create_relationship g (.connects rid a b)).2 = false ∧
      (FalkorDB.create_relationship g (.connects rid a b)).2 = true) := by
  refine ⟨falkor_file_eq_neo g f d, falkor_elem_eq_neo g e fid, rfl, rfl, rfl,
    ?_, rfl, ?_, ?_⟩
  · show (FalkorDB.createConnectsRelationship g rid a b).1 =
      (Neo4j.createConnectsRelationship g rid a b).1
    unfold FalkorDB.createConnectsRelationship Neo4j.createConnectsRelationship
    split
    · rfl
    · rfl
  · intro hne hc p hp s hs t ht
    show edgePresent
      (FalkorDB.createPropertyRelationship g rid as c).1 s t "HAS_PROPERTY" = true
    have hguard : (as.isEmpty || c = "") = false := by
      show (as.isEmpty || decide (c = "")) = false
      rw [hne, decide_eq_false hc]
      rfl
    rw [falkor_property_eq_pairFold,
      if_neg (by rw [hguard]; exact fun h => nomatch h)]
    exact pairFold_present g "HAS_PROPERTY" rid (as.map (fun x => (x, c)))
      p c (List.mem_map.mpr ⟨p, hp, rfl⟩) s t hs ht
  · intro ha hb hmiss
    constructor
    · show (Neo4j.createConnectsRelationship g rid a b).2 = false
      rw [neo_connects_missing g rid a b ha hb hmiss]
    · exact (falkor_connects_missing g rid a b ha hb hmiss).2

/-- Witness for C2 amended: the divergence conjuncts applied on the
two-element fixture store, with each hypothesis discharged there. -/
theorem c2_witness :
    (["A"] : List String).isEmpty = false ∧ ("P" : String) ≠ "" ∧
    ("A" : String) ≠ "" ∧ ("B" : String) ≠ "" ∧
    matchNids wGraphAP ["Element"] "globalId" (.str "B") = [] ∧
    edgePresent (FalkorDB.create_relationship wGraphAP
      (.hasProperty "r" ["A"] "P")).1 0 1 "HAS_PROPERTY" = true ∧
    (Neo4j.create_relationship wGraphAP (.connects "r" "A" "B")).2 = false ∧
    (FalkorDB.create_relationship wGraphAP (.connects "r" "A" "B")).2 = true := by
  refine ⟨by decide, by decide, by decide, by decide, by decide, ?_, ?_, ?_⟩
  · exact (c2_backend_contract_amended wGraphAP wFile "d" wElem none
      "r" "A" "B" "P" ["A"] []).2.2.2.2.2.2.2.1
      (by decide) (by decide) "A" (by decide) 0 (by decide) 1 (by decide)
  · exact ((c2_backend_contract_amended wGraphAP wFile "d" wElem none
      "r" "A" "B" "P" ["A"] []).2.2.2.2.2.2.2.2
      (by decide) (by decide) (by decide)).1
  · exact ((c2_backend_contract_amended wGraphAP wFile "d" wElem none
      "r" "A" "B" "P" ["A"] []).2.2.2.2.2.2.2.2
      (by decide) (by decide) (by decide)).2

end IfcGraph

